import Mathlib

/-!
Feedback form engine

A shallow embedding of the student feedback form
(`frontend/src/pages/student/FeedbackForm.js`) and of the HTTP helper
(`frontend/src/utils/api.js`).

* JavaScript values are modelled by small sum types that keep `undefined`
  and `null` apart, because the source tests `=== undefined`.
* The `answers` state object is an association list in the own-property
  order of a JavaScript object.
* The asynchronous `handleSubmit` is split at its single `await` into the
  synchronous part and the two continuations.
-/

namespace FeedbackSystem

/-! ## JavaScript values -/

/-- The `text` field of an answer: a string, `null` or `undefined`. -/
inductive JSText where
  | undefined
  | null
  | str (s : String)
  deriving DecidableEq, Repr

/-- The `value` field of an answer: a number, `null` or `undefined`. -/
inductive JSValue where
  | undefined
  | null
  | num (n : Int)
  deriving DecidableEq, Repr

/-- JavaScript truthiness of a text: only a non-empty string is truthy. -/
def JSText.truthy : JSText → Bool
  | .undefined => false
  | .null => false
  | .str s => decide (s ≠ "")

/-- JavaScript truthiness of a value: only a non-zero number is truthy. -/
def JSValue.truthy : JSValue → Bool
  | .undefined => false
  | .null => false
  | .num n => decide (n ≠ 0)

/-- Strict comparison `v === undefined`. -/
def JSValue.isUndefined : JSValue → Bool
  | .undefined => true
  | _ => false

/-! ## Data model -/

/-- Question id used as a property key of the `answers` object: a
non-negative integer id or a string id that is not a canonical number. -/
inductive QId where
  | num (n : Nat)
  | str (s : String)
  deriving DecidableEq, Repr

/-- Answer object `{ question_id, text, value }` built by `setAnswer`. -/
structure Answer where
  question_id : QId
  text : JSText
  value : JSValue
  deriving DecidableEq, Repr

/-- The `options` of a question: absent, the object `{min, max, labels}` of a
scale question, or the array of option strings of a multiple choice one. -/
inductive Options where
  | absent
  | scale (min : Option Int) (max : Option Int) (labels : List String)
  | choices (opts : List String)
  deriving DecidableEq, Repr

/-- Question of a loaded form, with the fields the component reads. -/
structure Question where
  id : QId
  question_text : String
  question_type : String
  is_required : Bool
  options : Options
  deriving DecidableEq, Repr

/-- Form as returned by `GET /forms/:formId`. -/
structure Form where
  title : String
  description : String
  is_anonymous : Bool
  questions : List Question
  deriving DecidableEq, Repr

/-! ## The `answers` object -/

/-- The `answers` state: own properties of a JavaScript object, listed in
own-property order (array-index keys ascending, then the other keys in
insertion order). -/
abbrev Collector := List (QId × Answer)

/-- Array index denoted by a key, if the key is an array index
(an integer below `2^32 - 1`). -/
def arrayIndex : QId → Option Nat
  | .num n => if n < 4294967295 then some n else none
  | .str _ => none

/-- Own-property order: does a new key `k` come before the existing key `k2`? -/
def comesBefore (k k2 : QId) : Bool :=
  match arrayIndex k, arrayIndex k2 with
  | some n, some m => decide (n < m)
  | some _, none => true
  | none, _ => false

/-- Property read `obj[k]`; `none` stands for `undefined`. -/
def getProp : Collector → QId → Option Answer
  | [], _ => none
  | (k2, a) :: rest, k => if k2 = k then some a else getProp rest k

/-- Does the object have the own property `k`? -/
def hasProp (c : Collector) (k : QId) : Bool :=
  (getProp c k).isSome

/-- Overwrite the value of the existing property `k`, keeping its position. -/
def replaceProp (k : QId) (a : Answer) : Collector → Collector
  | [] => []
  | (k2, a2) :: rest =>
    if k2 = k then (k, a) :: rest else (k2, a2) :: replaceProp k a rest

/-- Create the new property `k` at its place in own-property order. -/
def insertProp (k : QId) (a : Answer) : Collector → Collector
  | [] => [(k, a)]
  | (k2, a2) :: rest =>
    if comesBefore k k2 then (k, a) :: (k2, a2) :: rest
    else (k2, a2) :: insertProp k a rest

/-- The object `{ ...prev, [k]: a }`. -/
def setProp (prev : Collector) (k : QId) (a : Answer) : Collector :=
  if hasProp prev k then replaceProp k a prev else insertProp k a prev

/-- The array `Object.values(obj)`. -/
def objectValues (c : Collector) : List Answer :=
  c.map Prod.snd

/-- The array `Object.keys(obj)`. -/
def objectKeys (c : Collector) : List QId :=
  c.map Prod.fst

/-- Optional chaining `answers[id]?.text`. -/
def textAt (answers : Collector) (id : QId) : JSText :=
  match getProp answers id with
  | none => .undefined
  | some a => a.text

/-- Optional chaining `answers[id]?.value`. -/
def valueAt (answers : Collector) (id : QId) : JSValue :=
  match getProp answers id with
  | none => .undefined
  | some a => a.value

/-! ## `FeedbackForm` state and handlers -/

/-- `setAnswer(qId, text, value)`:
`setAnswers(prev => ({ ...prev, [qId]: { question_id: qId, text, value } }))`. -/
def setAnswer (prev : Collector) (qId : QId) (text : JSText) (value : JSValue) :
    Collector :=
  setProp prev qId { question_id := qId, text := text, value := value }

/-- The initial `answers` state, `useState({})`. -/
def emptyCollector : Collector := []

/-- Collector obtained from the empty one by a sequence of `setAnswer` calls. -/
def applyWrites (writes : List (QId × JSText × JSValue)) : Collector :=
  writes.foldl (fun c w => setAnswer c w.1 w.2.1 w.2.2) emptyCollector

/-- The predicate of the `missing` filter in `handleSubmit`:
`q.is_required && !answers[q.id]?.text && answers[q.id]?.value === undefined`. -/
def isMissing (answers : Collector) (q : Question) : Bool :=
  q.is_required && !(textAt answers q.id).truthy && (valueAt answers q.id).isUndefined

/-- The list `missing` computed by `handleSubmit`. -/
def missing (form : Form) (answers : Collector) : List Question :=
  form.questions.filter (isMissing answers)

/-- The predicate of the payload filter: `a.text || a.value !== undefined`. -/
def keepAnswer (a : Answer) : Bool :=
  a.text.truthy || !a.value.isUndefined

/-- Body of the submission POST. -/
structure Payload where
  is_anonymous : Bool
  answers : List Answer
  deriving DecidableEq, Repr

/-- The object literal passed to `api.post` in `handleSubmit`. -/
def submissionPayload (answers : Collector) (isAnonymous : Bool) : Payload :=
  { is_anonymous := isAnonymous
    answers := (objectValues answers).filter keepAnswer }

/-- The React state of one `FeedbackForm` view. -/
structure State where
  form : Option Form
  loading : Bool
  answers : Collector
  isAnonymous : Bool
  submitting : Bool
  submitted : Bool
  error : String
  deriving DecidableEq, Repr

/-- The initial state set up by the `useState` calls. -/
def initialState : State :=
  { form := none, loading := true, answers := emptyCollector, isAnonymous := false,
    submitting := false, submitted := false, error := "" }

/-- A call `api.post(path, body)`. -/
structure PostCall where
  path : String
  body : Payload
  deriving DecidableEq, Repr

/-- Result of the synchronous part of `handleSubmit`: the state after the
setter calls and the POST handed to the transport, if any. -/
structure Step where
  state : State
  post : Option PostCall
  deriving DecidableEq, Repr

/-- The message shown when a required question is unanswered. -/
def requiredMessage : String := "Please answer all required questions"

/-- The part of `handleSubmit` that runs before the `await`. The result is
`none` when `form` is `null`, where `form.questions` throws. -/
def handleSubmitStart (formId : String) (s : State) : Option Step :=
  match s.form with
  | none => none
  | some form =>
    if (missing form s.answers).length > 0 then
      some { state := { s with error := requiredMessage }, post := none }
    else
      some { state := { s with submitting := true, error := "" }
             post := some { path := "/forms/" ++ formId ++ "/submit"
                            body := submissionPayload s.answers s.isAnonymous } }

/-- Continuation of `handleSubmit` when the POST resolves:
`setSubmitted(true)` and then `setSubmitting(false)`. -/
def handleSubmitResolve (s : State) : State :=
  { s with submitted := true, submitting := false }

/-- Continuation of `handleSubmit` when the POST rejects with an error whose
message is `message`: `setError(err.message)` and then `setSubmitting(false)`. -/
def handleSubmitReject (s : State) (message : String) : State :=
  { s with error := message, submitting := false }

/-- A whole run of `handleSubmit` with no other event in between; `outcome`
is how the transport settles the POST, if one is issued. -/
def handleSubmit (formId : String) (s : State) (outcome : Except String Unit) :
    Option Step :=
  match handleSubmitStart formId s with
  | none => none
  | some step =>
    match step.post with
    | none => some step
    | some call =>
      match outcome with
      | .ok _ => some { state := handleSubmitResolve step.state, post := some call }
      | .error message =>
        some { state := handleSubmitReject step.state message, post := some call }

/-- Is the `form` element rendered? The component returns early while
loading, when no form was loaded, and after a successful submission. -/
def formRendered (s : State) : Bool :=
  !s.loading && s.form.isSome && !s.submitted

/-- The `disabled` attribute of the submit button: `disabled=submitting`. -/
def submitDisabled (s : State) : Bool :=
  s.submitting

/-- Representation invariant of a collector built by `setAnswer`: every key
occurs once and every answer carries the key it is stored under. -/
def WellFormed (c : Collector) : Prop :=
  (objectKeys c).Nodup ∧ ∀ e ∈ c, e.2.question_id = e.1

instance (c : Collector) : Decidable (WellFormed c) := by
  unfold WellFormed
  infer_instance

/-- Presence rule in the words of the specification: the text is a non-empty
string, or the value is neither `null` nor `undefined`. -/
def specPresent (a : Answer) : Bool :=
  (match a.text with
   | .str s => decide (s ≠ "")
   | _ => false) ||
  (match a.value with
   | .num _ => true
   | _ => false)

/-- A form with one required text question, whose id is 1. -/
def requiredTextForm : Form :=
  { title := "Course feedback", description := "", is_anonymous := false
    questions := [{ id := .num 1, question_text := "Comments", question_type := "text"
                    is_required := true, options := .absent }] }

/-- The collector after the text widget of question 1 wrote the text `a` and
then the empty text: `setAnswer(1, 'a', null)`, `setAnswer(1, '', null)`. -/
def clearedTextCollector : Collector :=
  applyWrites [(.num 1, .str "a", .null), (.num 1, .str "", .null)]

/-- A collector holding a yes/no answer `No` and an emptied text answer. -/
def sampleCollector : Collector :=
  applyWrites [(.num 2, .str "", .null), (.num 1, .str "No", .num 0)]

/-- A rendered form view with a complete answer, no submission in flight. -/
def readyState : State :=
  { form := some requiredTextForm, loading := false
    answers := applyWrites [(.num 1, .str "Great course", .null)]
    isAnonymous := true, submitting := false, submitted := false, error := "" }

/-- A rendered form view whose required question was never answered. -/
def untouchedState : State :=
  { form := some requiredTextForm, loading := false, answers := emptyCollector
    isAnonymous := false, submitting := false, submitted := false, error := "" }

/-- A rendered form view with a complete answer and a submission in flight. -/
def inFlightState : State :=
  { readyState with submitting := true }

/-! ## The HTTP helper `request` of `utils/api.js` -/

/-- Parsed JSON value, as produced by `res.json()`. The numbers of the model
are the safe integers, of magnitude up to `2^53 - 1`: these are doubles, and
`String(n)` is their decimal numeral. -/
inductive Json where
  | null
  | bool (b : Bool)
  | num (n : Int) (safe : n.natAbs ≤ 9007199254740991)
  | str (s : String)
  | arr (items : List Json)
  | obj (fields : List (String × Json))

/-- JavaScript truthiness of a JSON value. -/
def Json.truthy : Json → Bool
  | .null => false
  | .bool b => b
  | .num n _ => decide (n ≠ 0)
  | .str s => decide (s ≠ "")
  | .arr _ => true
  | .obj _ => true

mutual
/-- JavaScript `String(v)` for a JSON value, as applied by `new Error(v)`. -/
def Json.toStr : Json → String
  | .null => "null"
  | .bool b => if b then "true" else "false"
  | .num n _ => toString n
  | .str s => s
  | .arr items => Json.joinItems items
  | .obj _ => "[object Object]"
/-- The comma-joined elements of an array (`Array.prototype.join`). -/
def Json.joinItems : List Json → String
  | [] => ""
  | [x] => Json.elemStr x
  | x :: y :: rest => Json.elemStr x ++ "," ++ Json.joinItems (y :: rest)
/-- String of one array element inside `join`: `null` gives the empty string. -/
def Json.elemStr : Json → String
  | .null => ""
  | .bool b => if b then "true" else "false"
  | .num n _ => toString n
  | .str s => s
  | .arr items => Json.joinItems items
  | .obj _ => "[object Object]"
end

/-- Value of the last field called `name`, as `JSON.parse` keeps the last
duplicate; `none` stands for `undefined`. -/
def lastField (name : String) : List (String × Json) → Option Json
  | [] => none
  | (k, v) :: rest =>
    match lastField name rest with
    | some w => some w
    | none => if k = name then some v else none

/-- Outcome of evaluating a property read on a JSON value. -/
inductive PropRead where
  | threw
  | undefined
  | value (v : Json)

/-- The property read `json.error`: a `TypeError` on `null`, the field of an
object, and `undefined` on every other value. -/
def readError : Json → PropRead
  | .null => .threw
  | .obj fields =>
    match lastField "error" fields with
    | some v => .value v
    | none => .undefined
  | _ => .undefined

/-- What `request` reads of the `fetch` response: `res.ok`, `res.status` and
the result of `res.json()`, where `none` means that the promise rejected. -/
structure Response where
  ok : Bool
  status : Nat
  body : Option Json

/-- The object `{ data: json, status: res.status }` returned by `request`. -/
structure ApiResult where
  data : Json
  status : Nat

/-- What the promise returned by `request` rejects with, once `fetch` has
resolved: the `Error` built by `request`, with its `message` and `status`,
or the `TypeError` raised by the engine, whose message is engine-defined. -/
inductive ApiError where
  | http (message : String) (status : Nat)
  | typeError

/-- The generic message of the template string with `HTTP` and the status. -/
def genericMessage (status : Nat) : String :=
  "HTTP " ++ toString status

/-- The part of `request` after `fetch` resolved with `res`:
`json` is `res.json()` with the fallback to the empty object; a response that
is not ok throws `new Error(json.error || generic)` with `err.status` set. -/
def request (res : Response) : Except ApiError ApiResult :=
  let json := res.body.getD (Json.obj [])
  if !res.ok then
    match readError json with
    | .threw => .error .typeError
    | .undefined => .error (.http (genericMessage res.status) res.status)
    | .value v =>
      .error (.http (if v.truthy then v.toStr else genericMessage res.status) res.status)
  else
    .ok { data := json, status := res.status }

/-! ## Chart primitives of `TeacherAnalytics.js`

The layout formulas are evaluated with exact rational arithmetic in
`BarChart` and `DonutChart`. JavaScript evaluates them in binary64, where
every operation is rounded: that evaluation of the donut layout is
`DonutChart64`, further down. -/

/-- An item `{ label, value }` of the series given to `BarChart`. -/
structure BarDatum where
  label : String
  value : ℚ
  deriving DecidableEq, Repr

/-- One rendered column of `BarChart`: the number shown above the bar, the
`height` (in px), `minHeight` and `opacity` of the bar style, and the label
shown below the bar. -/
structure Bar where
  shown : ℚ
  height : ℚ
  minHeight : ℚ
  opacity : ℚ
  label : String
  deriving DecidableEq, Repr

/-- The denominator of `BarChart`: `Math.max(...data.map(d => d.value), 1)`. -/
def barMax (data : List BarDatum) : ℚ :=
  (data.map (fun d => d.value)).foldl max 1

/-- `BarChart`; `none` is the `null` returned when `data` has no items. -/
def BarChart (data : List BarDatum) : Option (List Bar) :=
  if data.length = 0 then none
  else
    let m := barMax data
    some (data.map (fun d =>
      { shown := d.value
        height := d.value / m * 100
        minHeight := 4
        opacity := 7 / 10 + d.value / m * (3 / 10)
        label := d.label }))

/-- The largest value of a series, 0 for the empty series. -/
def largestValue : List ℚ → ℚ
  | [] => 0
  | [x] => x
  | x :: y :: rest => max x (largestValue (y :: rest))

/-- Denominator in the words of the specification, `max(values) or 1`: the
largest value of the series if that is non-zero and 1 otherwise. -/
def specBarMax (data : List BarDatum) : ℚ :=
  if largestValue (data.map (fun d => d.value)) ≠ 0 then
    largestValue (data.map (fun d => d.value))
  else 1

/-- An item `{ label, value, color }` of the series given to `DonutChart`. -/
structure DonutDatum where
  label : String
  value : ℚ
  color : String
  deriving DecidableEq, Repr

/-- An element `{ ...d, dashLen, offset, pct }` of `segments`. -/
structure Segment where
  label : String
  value : ℚ
  color : String
  dashLen : ℚ
  offset : ℚ
  pct : ℚ
  deriving DecidableEq, Repr

/-- One row of the legend: the color of the square, the label and the value. -/
structure LegendEntry where
  color : String
  label : String
  value : ℚ
  deriving DecidableEq, Repr

/-- What `DonutChart` renders: the segments drawn as circles, the number in
the center above the word `total`, and the legend rows. -/
structure DonutView where
  segments : List Segment
  centerLabel : ℚ
  legend : List LegendEntry
  deriving DecidableEq, Repr

/-- The sum `data.reduce((a,b) => a + b.value, 0)`. -/
def donutSum (data : List DonutDatum) : ℚ :=
  data.foldl (fun a b => a + b.value) 0

/-- The constant `total`: the sum, with `|| 1` replacing a sum of 0. -/
def donutTotal (data : List DonutDatum) : ℚ :=
  if donutSum data ≠ 0 then donutSum data else 1

/-- The constant `circumference`, `2 * Math.PI * r` with `r = 50`; the
number `Math.PI` is the parameter `pi`. -/
def circumference (pi : ℚ) : ℚ :=
  2 * pi * 50

/-- The decimal number JavaScript prints for `Math.PI`. -/
def mathPI : ℚ :=
  3141592653589793 / 1000000000000000

/-- The `data.map` callback of `DonutChart` run over the series with exact
arithmetic, threading the mutable variable `angle`: the segments and the
final value of `angle`. -/
def mapSegments (total circ : ℚ) : ℚ → List DonutDatum → List Segment × ℚ
  | angle, [] => ([], angle)
  | angle, d :: rest =>
    let pct := d.value / total
    let dashLen := pct * circ
    let offset := -(angle / 360) * circ
    let r := mapSegments total circ (angle + pct * 360) rest
    ({ label := d.label, value := d.value, color := d.color
       dashLen := dashLen, offset := offset, pct := pct } :: r.1, r.2)

/-- `DonutChart` for the series `data`, with exact arithmetic. -/
def DonutChart (pi : ℚ) (data : List DonutDatum) : DonutView :=
  let total := donutTotal data
  { segments := (mapSegments total (circumference pi) (-90) data).1
    centerLabel := total
    legend := data.map (fun d => { color := d.color, label := d.label, value := d.value }) }

/-- The series `[(A,3),(B,7),(C,1)]`. -/
def barSample : List BarDatum :=
  [{ label := "A", value := 3 }, { label := "B", value := 7 }, { label := "C", value := 1 }]

/-- A series whose only value is one half. -/
def halfSeries : List BarDatum :=
  [{ label := "A", value := 1 / 2 }]

/-- The series `[(X,5),(Y,3),(Z,2)]`. -/
def donutSample : List DonutDatum :=
  [{ label := "X", value := 5, color := "red" }, { label := "Y", value := 3, color := "green" },
   { label := "Z", value := 2, color := "blue" }]

/-- The sentiment series of a course without feedback: three counts of 0. -/
def emptySentiment : List DonutDatum :=
  [{ label := "Positive", value := 0, color := "var(--accent-green)" },
   { label := "Neutral", value := 0, color := "var(--accent-amber)" },
   { label := "Negative", value := 0, color := "var(--accent-red)" }]

/-! ## Widgets of `FeedbackForm.js` -/

/-- `options?.min || 1` in `ScaleInput`. -/
def scaleMin (options : Options) : Int :=
  match options with
  | .scale (some m) _ _ => if m ≠ 0 then m else 1
  | _ => 1

/-- `options?.max || 10` in `ScaleInput`. -/
def scaleMax (options : Options) : Int :=
  match options with
  | .scale _ (some m) _ => if m ≠ 0 then m else 10
  | _ => 10

/-- `options?.labels || []` in `ScaleInput`. -/
def scaleLabels (options : Options) : List String :=
  match options with
  | .scale _ _ labels => labels
  | _ => []

/-- The array `range` of `ScaleInput`:
`Array.from({length: max - min + 1}, (_, i) => i + min)`; a negative length
gives the empty array. -/
def scaleRange (options : Options) : List Int :=
  (List.range (scaleMax options - scaleMin options + 1).toNat).map
    (fun (i : Nat) => (i : Int) + scaleMin options)

/-- A button of `ScaleInput`: its number and whether it is shown selected. -/
structure ScaleButton where
  n : Int
  selected : Bool
  deriving DecidableEq, Repr

/-- What `ScaleInput` renders: the two end labels and the buttons. -/
structure ScaleView where
  lowLabel : String
  highLabel : String
  buttons : List ScaleButton
  deriving DecidableEq, Repr

/-- The label `labels[i] || fallback`, the fallback number shown in decimal. -/
def labelOr (labels : List String) (i : Nat) (fallback : Int) : String :=
  match labels.get? i with
  | some l => if l ≠ "" then l else toString fallback
  | none => toString fallback

/-- `ScaleInput` for the given `options` and current `value`. -/
def ScaleInput (options : Options) (value : JSValue) : ScaleView :=
  { lowLabel := labelOr (scaleLabels options) 0 (scaleMin options)
    highLabel := labelOr (scaleLabels options) 1 (scaleMax options)
    buttons := (scaleRange options).map
      (fun n => { n := n, selected := decide (value = .num n) }) }

/-- The `setAnswer` calls the scale widget of question `q` can make: button
`n` calls `onChange(n)`, which is `v => setAnswer(q.id, v.toString(), v)`. -/
def scaleWrites (q : Question) : List (QId × JSText × JSValue) :=
  (ScaleInput q.options (.undefined)).buttons.map
    (fun b => (q.id, .str (toString b.n), .num b.n))

/-- The `setAnswer` calls the yes/no widget of question `q` can make: the
button of `opt` calls `setAnswer(q.id, opt, opt === 'Yes' ? 1 : 0)`. -/
def yesNoWrites (q : Question) : List (QId × JSText × JSValue) :=
  ["Yes", "No"].map (fun opt => (q.id, .str opt, .num (if opt = "Yes" then 1 else 0)))

/-- Options of a scale from 0 to 5: `{ min: 0, max: 5 }`. -/
def zeroBasedScale : Options :=
  .scale (some 0) (some 5) []

/-- A yes/no question with id 3. -/
def yesNoQuestion : Question :=
  { id := .num 3, question_text := "Would you recommend this course?"
    question_type := "yes_no", is_required := true, options := .absent }

/-- The numbers of the five stars of `StarRating`: `[1,2,3,4,5]`. -/
def starNumbers : List Int :=
  [1, 2, 3, 4, 5]

/-- A star button of `StarRating`: its number and whether it has the class
`filled`, that is `n <= value`. -/
structure Star where
  n : Int
  filled : Bool
  deriving DecidableEq, Repr

/-- What `StarRating` renders: the five stars and the text of the label. -/
structure StarView where
  stars : List Star
  label : String
  deriving DecidableEq, Repr

/-- `StarRating` for the current rating `value`. -/
def StarRating (value : Int) : StarView :=
  { stars := starNumbers.map (fun n => { n := n, filled := decide (n ≤ value) })
    label := if value ≠ 0 then toString value ++ "/5" else "Click to rate" }

/-- The rating handed to `StarRating`: `answers[q.id]?.value || 0`. -/
def ratingValue (answers : Collector) (id : QId) : Int :=
  match valueAt answers id with
  | .num n => if n ≠ 0 then n else 0
  | _ => 0

/-- The `setAnswer` calls the star-rating widget of question `q` can make:
star `n` calls `onChange(n)`, which is `v => setAnswer(q.id, v.toString(), v)`. -/
def ratingWrites (q : Question) : List (QId × JSText × JSValue) :=
  starNumbers.map (fun n => (q.id, .str (toString n), .num n))

/-- The options listed by the multiple-choice widget:
`Array.isArray(q.options) ? q.options : []`. -/
def choiceOptions (options : Options) : List String :=
  match options with
  | .choices opts => opts
  | _ => []

/-- The `setAnswer` calls the multiple-choice widget of question `q` can
make: the button of `opt` calls `setAnswer(q.id, opt, null)`. -/
def multipleChoiceWrites (q : Question) : List (QId × JSText × JSValue) :=
  (choiceOptions q.options).map (fun opt => (q.id, .str opt, .null))

/-- The `setAnswer` call of the textarea of question `q` when its content
becomes `typed`: `setAnswer(q.id, e.target.value, null)`. -/
def textWrite (q : Question) (typed : String) : QId × JSText × JSValue :=
  (q.id, .str typed, .null)

/-- Is `w` a call the textarea of `q` can make, for some typed content? -/
def isTextWrite (q : Question) (w : QId × JSText × JSValue) : Bool :=
  match w with
  | (k, .str _, .null) => decide (k = q.id)
  | _ => false

/-- Is `w` a `setAnswer` call that the widget rendered for question `q` can
make? The card of `q` renders one widget per matching `question_type`. -/
def isWidgetWrite (q : Question) (w : QId × JSText × JSValue) : Bool :=
  (decide (q.question_type = "text") && isTextWrite q w) ||
  (decide (q.question_type = "rating") && decide (w ∈ ratingWrites q)) ||
  (decide (q.question_type = "scale") && decide (w ∈ scaleWrites q)) ||
  (decide (q.question_type = "yes_no") && decide (w ∈ yesNoWrites q)) ||
  (decide (q.question_type = "multiple_choice") && decide (w ∈ multipleChoiceWrites q))

/-- Is `w` a `setAnswer` call some widget of the rendered form can make? -/
def isFormWrite (form : Form) (w : QId × JSText × JSValue) : Bool :=
  form.questions.any (fun q => isWidgetWrite q w)

/-- A multiple-choice question with id 5 and three options. -/
def choiceQuestion : Question :=
  { id := .num 5, question_text := "Which part helped most?"
    question_type := "multiple_choice", is_required := false
    options := .choices ["Lectures", "Labs", "Project"] }

/-- A form with a required yes/no question and an optional choice question. -/
def mixedForm : Form :=
  { title := "Course feedback", description := "", is_anonymous := false
    questions := [yesNoQuestion, choiceQuestion] }

/-! ## Routing of `App.js` -/

/-- The user object of the auth context, of which the routes read `role`. -/
structure User where
  role : String
  deriving DecidableEq, Repr

/-- What `useAuth()` returns to the route guards. -/
structure Auth where
  user : Option User
  loading : Bool
  deriving DecidableEq, Repr

/-- What a route element renders: a `Navigate` to a path, given by its
segments, a page, or the loading spinner. -/
inductive Element where
  | navigate (target : List String)
  | page (name : String)
  | loader
  deriving DecidableEq, Repr

/-- `ProtectedRoute` with the given `roles` around `children`. -/
def ProtectedRoute (auth : Auth) (roles : Option (List String)) (children : Element) :
    Element :=
  if auth.loading then .loader
  else
    match auth.user with
    | none => .navigate ["login"]
    | some user =>
      match roles with
      | some rs => if !rs.contains user.role then .navigate [] else children
      | none => children

/-- `RoleRedirect`, the element of the path `/`. -/
def RoleRedirect (auth : Auth) : Element :=
  match auth.user with
  | none => .navigate ["login"]
  | some user =>
    if user.role = "admin" then .navigate ["admin"]
    else if user.role = "teacher" then .navigate ["teacher"]
    else .navigate ["student"]

/-- Child routes of `/student`: the page of the matching child, if any. -/
def studentChild : List String → Option String
  | [] => some "StudentDashboard"
  | ["courses"] => some "StudentCourses"
  | ["courses", _] => some "CourseView"
  | ["feedback", _] => some "FeedbackForm"
  | _ => none

/-- Child routes of `/teacher`. -/
def teacherChild : List String → Option String
  | [] => some "TeacherDashboard"
  | ["courses"] => some "TeacherCourses"
  | ["courses", _] => some "TeacherCourseDetail"
  | ["analytics"] => some "TeacherAnalytics"
  | _ => none

/-- Child routes of `/admin`. -/
def adminChild : List String → Option String
  | [] => some "AdminDashboard"
  | ["users"] => some "AdminUsers"
  | ["courses"] => some "AdminCourses"
  | _ => none

/-- The element of the catch-all route `*`: `Navigate` to `/`. -/
def catchAll : Element :=
  .navigate []

/-- A guarded branch of the route table: the guard around the layout with the
matching child page, or the catch-all route when no child matches. -/
def guarded (auth : Auth) (role : String) (child : Option String) : Element :=
  match child with
  | some name => ProtectedRoute auth (some [role]) (.page name)
  | none => catchAll

/-- The `Routes` table of `App` on a path whose segments are in lower case:
the element of the matching route. -/
def routeElement (auth : Auth) : List String → Element
  | [] => RoleRedirect auth
  | ["login"] => .page "LoginPage"
  | ["register"] => .page "RegisterPage"
  | "student" :: rest => guarded auth "student" (studentChild rest)
  | "teacher" :: rest => guarded auth "teacher" (teacherChild rest)
  | "admin" :: rest => guarded auth "admin" (adminChild rest)
  | _ => catchAll

/-- A path segment with its letters `A` to `Z` turned into lower case. -/
def lowerSegment (s : String) : String :=
  String.mk (s.data.map Char.toLower)

/-- The element `App` renders at a path, given by its segments. The router
matches the route paths without regard to case, which is its default. -/
def App (auth : Auth) (path : List String) : Element :=
  routeElement auth (path.map lowerSegment)

/-- Follow at most `fuel` route elements starting at `path`: the first
element that is not a `Navigate`, or `none` when all of them redirect. -/
def followRedirects (auth : Auth) : Nat → List String → Option Element
  | 0, _ => none
  | fuel + 1, path =>
    match App auth path with
    | .navigate target => followRedirects auth fuel target
    | e => some e

/-- A logged-in user whose role is `guest`. -/
def guestAuth : Auth :=
  { user := some { role := "guest" }, loading := false }

/-! ## Binary64 arithmetic and the donut chart in binary64 -/

/-- Round a rational to the nearest integer, a tie to the even one. -/
def roundHalfEven (y : ℚ) : ℤ :=
  if y - ⌊y⌋ < 1 / 2 then ⌊y⌋
  else if 1 / 2 < y - ⌊y⌋ then ⌊y⌋ + 1
  else if ⌊y⌋ % 2 = 0 then ⌊y⌋ else ⌊y⌋ + 1

/-- Round a rational to the nearest binary64 number, a tie to the even
significand: the result has a significand of 53 bits. The exponent range is
not bounded, so the model is that of JavaScript numbers as long as no
operation overflows or gives a subnormal result. -/
def round64 (x : ℚ) : ℚ :=
  if x = 0 then 0
  else roundHalfEven (x / 2 ^ (Int.log 2 |x| - 52)) * 2 ^ (Int.log 2 |x| - 52)

/-- The JavaScript sum `x + y` of two numbers. -/
def add64 (x y : ℚ) : ℚ :=
  round64 (x + y)

/-- The JavaScript product `x * y` of two numbers. -/
def mul64 (x y : ℚ) : ℚ :=
  round64 (x * y)

/-- The JavaScript quotient `x / y` of two numbers, for `y` other than 0. -/
def div64 (x y : ℚ) : ℚ :=
  round64 (x / y)

/-- The unit roundoff of binary64, `2^-53`. -/
def unitRoundoff : ℚ :=
  1 / 2 ^ 53

/-- The binary64 number `Math.PI`. -/
def mathPI64 : ℚ :=
  884279719003555 / 2 ^ 48

/-- The constant `circumference` in binary64: `2 * Math.PI * r` with `r = 50`. -/
def circumference64 : ℚ :=
  mul64 (mul64 2 mathPI64) 50

/-- The sum `data.reduce((a,b) => a + b.value, 0)` in binary64. -/
def donutSum64 (data : List DonutDatum) : ℚ :=
  data.foldl (fun a b => add64 a b.value) 0

/-- The constant `total` in binary64: the sum, with `|| 1` replacing 0. -/
def donutTotal64 (data : List DonutDatum) : ℚ :=
  if donutSum64 data ≠ 0 then donutSum64 data else 1

/-- The `data.map` callback of `DonutChart` in binary64, threading the
mutable variable `angle`: the segments and the final value of `angle`. -/
def mapSegments64 (total circ : ℚ) : ℚ → List DonutDatum → List Segment × ℚ
  | angle, [] => ([], angle)
  | angle, d :: rest =>
    let pct := div64 d.value total
    let dashLen := mul64 pct circ
    let offset := mul64 (-(div64 angle 360)) circ
    let r := mapSegments64 total circ (add64 angle (mul64 pct 360)) rest
    ({ label := d.label, value := d.value, color := d.color
       dashLen := dashLen, offset := offset, pct := pct } :: r.1, r.2)

/-- `DonutChart` for the series `data`, every operation in binary64. -/
def DonutChart64 (data : List DonutDatum) : DonutView :=
  let total := donutTotal64 data
  { segments := (mapSegments64 total circumference64 (-90) data).1
    centerLabel := total
    legend := data.map (fun d => { color := d.color, label := d.label, value := d.value }) }

/-- Value of the variable `angle` in binary64 when the callback runs for
item `i`, that is after the first `i` items were processed. -/
def angleBefore64 (data : List DonutDatum) (i : Nat) : ℚ :=
  (mapSegments64 (donutTotal64 data) circumference64 (-90) (data.take i)).2

/-- Value of the variable `angle` in binary64 after the whole series. -/
def finalAngle64 (data : List DonutDatum) : ℚ :=
  (mapSegments64 (donutTotal64 data) circumference64 (-90) data).2

/-- The angle span `pct * 360` in binary64 of an item of the series. -/
def span64 (total : ℚ) (d : DonutDatum) : ℚ :=
  mul64 (div64 d.value total) 360

/-- The series `[(X,1),(Y,1),(Z,1)]`. -/
def thirdsSeries : List DonutDatum :=
  [{ label := "X", value := 1, color := "red" }, { label := "Y", value := 1, color := "green" },
   { label := "Z", value := 1, color := "blue" }]

/-- The series `[(X,1),(Y,2),(Z,4)]`. -/
def seventhsSeries : List DonutDatum :=
  [{ label := "X", value := 1, color := "red" }, { label := "Y", value := 2, color := "green" },
   { label := "Z", value := 4, color := "blue" }]

/-- Lower factor of the rounding tolerance of a donut series of `n` items:
two roundings per segment against `n` roundings of the sum. -/
def toleranceLow (n : Nat) : ℚ :=
  (1 - unitRoundoff) ^ 2 / (1 + unitRoundoff) ^ n

/-- Upper factor of the rounding tolerance of a donut series of `n` items. -/
def toleranceHigh (n : Nat) : ℚ :=
  (1 + unitRoundoff) ^ 2 / (1 - unitRoundoff) ^ n

/-! ## Lemmas on the `answers` object -/

theorem hasProp_iff_mem_keys (c : Collector) (k : QId) :
    hasProp c k = true ↔ k ∈ objectKeys c := by
  induction c with
  | nil => simp [hasProp, getProp, objectKeys]
  | cons e rest ih =>
    obtain ⟨k2, a⟩ := e
    by_cases h : k2 = k
    · simp [hasProp, getProp, objectKeys, h]
    · have h2 : ¬ k = k2 := fun h3 => h h3.symm
      simpa [hasProp, getProp, objectKeys, h, h2] using ih

theorem getProp_eq_none_iff (c : Collector) (k : QId) :
    getProp c k = none ↔ k ∉ objectKeys c := by
  rw [← hasProp_iff_mem_keys]
  cases h : getProp c k <;> simp [hasProp, h]

theorem mem_of_getProp (c : Collector) (k : QId) (a : Answer)
    (h : getProp c k = some a) : (k, a) ∈ c := by
  induction c with
  | nil => simp [getProp] at h
  | cons e rest ih =>
    obtain ⟨k2, a2⟩ := e
    by_cases hk : k2 = k
    · simp [getProp, hk] at h
      simp [hk, h]
    · simp [getProp, hk] at h
      exact List.mem_cons_of_mem _ (ih h)

theorem getProp_of_mem (c : Collector) (k : QId) (a : Answer)
    (hn : (objectKeys c).Nodup) (h : (k, a) ∈ c) : getProp c k = some a := by
  induction c with
  | nil => simp at h
  | cons e rest ih =>
    obtain ⟨k2, a2⟩ := e
    simp only [objectKeys, List.map_cons, List.nodup_cons] at hn
    rcases List.mem_cons.mp h with h1 | h1
    · cases h1
      simp [getProp]
    · have hk : k2 ≠ k := by
        intro hk
        apply hn.1
        rw [hk]
        exact List.mem_map_of_mem Prod.fst h1
      simp only [getProp, hk, if_false]
      exact ih hn.2 h1

theorem values_mem_of_getProp (c : Collector) (k : QId) (a : Answer)
    (h : getProp c k = some a) : a ∈ objectValues c :=
  List.mem_map_of_mem Prod.snd (mem_of_getProp c k a h)

theorem keys_replaceProp (k : QId) (a : Answer) (c : Collector) :
    objectKeys (replaceProp k a c) = objectKeys c := by
  induction c with
  | nil => rfl
  | cons e rest ih =>
    obtain ⟨k2, a2⟩ := e
    by_cases h : k2 = k
    · simp [replaceProp, objectKeys, h]
    · simp only [replaceProp, h, if_false, objectKeys, List.map_cons] at ih ⊢
      rw [ih]

theorem keys_insertProp (k : QId) (a : Answer) (c : Collector) :
    (objectKeys (insertProp k a c)).Perm (k :: objectKeys c) := by
  induction c with
  | nil => simp [insertProp, objectKeys]
  | cons e rest ih =>
    obtain ⟨k2, a2⟩ := e
    by_cases h : comesBefore k k2 = true
    · simp [insertProp, objectKeys, h]
    · simp only [insertProp, h, objectKeys, List.map_cons] at ih ⊢
      exact (List.Perm.cons k2 ih).trans (List.Perm.swap k k2 _)

theorem getProp_replaceProp_self (k : QId) (a : Answer) (c : Collector)
    (h : hasProp c k = true) : getProp (replaceProp k a c) k = some a := by
  induction c with
  | nil => simp [hasProp, getProp] at h
  | cons e rest ih =>
    obtain ⟨k2, a2⟩ := e
    by_cases hk : k2 = k
    · simp [replaceProp, getProp, hk]
    · have h2 : hasProp rest k = true := by
        simpa [hasProp, getProp, hk] using h
      simp [replaceProp, getProp, hk, ih h2]

theorem getProp_replaceProp_other (k p : QId) (a : Answer) (c : Collector)
    (hp : p ≠ k) : getProp (replaceProp k a c) p = getProp c p := by
  induction c with
  | nil => rfl
  | cons e rest ih =>
    obtain ⟨k2, a2⟩ := e
    by_cases hk : k2 = k
    · have h3 : ¬ k = p := fun h4 => hp h4.symm
      simp [replaceProp, getProp, hk, h3]
    · by_cases h5 : k2 = p
      · subst h5
        simp [replaceProp, getProp, hk]
      · simp [replaceProp, getProp, hk, h5, ih]

theorem getProp_insertProp_self (k : QId) (a : Answer) (c : Collector)
    (h : hasProp c k = false) : getProp (insertProp k a c) k = some a := by
  induction c with
  | nil => simp [insertProp, getProp]
  | cons e rest ih =>
    obtain ⟨k2, a2⟩ := e
    by_cases hk : k2 = k
    · simp [hasProp, getProp, hk] at h
    · have h2 : hasProp rest k = false := by
        simpa [hasProp, getProp, hk] using h
      by_cases hb : comesBefore k k2 = true
      · simp [insertProp, getProp, hb]
      · simp [insertProp, getProp, hb, hk, ih h2]

theorem getProp_insertProp_other (k p : QId) (a : Answer) (c : Collector)
    (hp : p ≠ k) : getProp (insertProp k a c) p = getProp c p := by
  have h3 : ¬ k = p := fun h4 => hp h4.symm
  induction c with
  | nil => simp [insertProp, getProp, h3]
  | cons e rest ih =>
    obtain ⟨k2, a2⟩ := e
    by_cases hb : comesBefore k k2 = true
    · simp [insertProp, getProp, hb, h3]
    · by_cases h5 : k2 = p
      · subst h5
        simp [insertProp, getProp, hb]
      · simp [insertProp, getProp, hb, h5, ih]

theorem getProp_setProp_self (c : Collector) (k : QId) (a : Answer) :
    getProp (setProp c k a) k = some a := by
  unfold setProp
  cases h : hasProp c k
  · simpa using getProp_insertProp_self k a c h
  · simpa using getProp_replaceProp_self k a c h

theorem getProp_setProp_other (c : Collector) (k p : QId) (a : Answer)
    (hp : p ≠ k) : getProp (setProp c k a) p = getProp c p := by
  unfold setProp
  cases h : hasProp c k
  · simpa using getProp_insertProp_other k p a c hp
  · simpa using getProp_replaceProp_other k p a c hp

theorem mem_replaceProp (k : QId) (a : Answer) (c : Collector) (e : QId × Answer)
    (h : e ∈ replaceProp k a c) : e = (k, a) ∨ e ∈ c := by
  induction c with
  | nil => simp [replaceProp] at h
  | cons e2 rest ih =>
    obtain ⟨k2, a2⟩ := e2
    by_cases hk : k2 = k
    · simp only [replaceProp, hk, if_true, List.mem_cons] at h
      rcases h with h | h
      · exact Or.inl h
      · exact Or.inr (List.mem_cons_of_mem _ h)
    · simp only [replaceProp, hk, if_false, List.mem_cons] at h
      rcases h with h | h
      · exact Or.inr (by rw [h]; exact List.mem_cons_self _ _)
      · rcases ih h with h2 | h2
        · exact Or.inl h2
        · exact Or.inr (List.mem_cons_of_mem _ h2)

theorem mem_insertProp (k : QId) (a : Answer) (c : Collector) (e : QId × Answer)
    (h : e ∈ insertProp k a c) : e = (k, a) ∨ e ∈ c := by
  induction c with
  | nil => simpa [insertProp] using h
  | cons e2 rest ih =>
    obtain ⟨k2, a2⟩ := e2
    by_cases hb : comesBefore k k2 = true
    · simpa [insertProp, hb] using h
    · have h3 : e ∈ (k2, a2) :: insertProp k a rest := by
        simpa [insertProp, hb] using h
      rcases List.mem_cons.mp h3 with h4 | h4
      · exact Or.inr (by rw [h4]; exact List.mem_cons_self _ _)
      · rcases ih h4 with h2 | h2
        · exact Or.inl h2
        · exact Or.inr (List.mem_cons_of_mem _ h2)

theorem mem_setProp (c : Collector) (k : QId) (a : Answer) (e : QId × Answer)
    (h : e ∈ setProp c k a) : e = (k, a) ∨ e ∈ c := by
  unfold setProp at h
  cases hp : hasProp c k
  · rw [hp] at h
    exact mem_insertProp k a c e (by simpa using h)
  · rw [hp] at h
    exact mem_replaceProp k a c e (by simpa using h)

theorem keys_setProp_perm (c : Collector) (k : QId) (a : Answer) :
    (hasProp c k = true ∧ objectKeys (setProp c k a) = objectKeys c) ∨
    (hasProp c k = false ∧ (objectKeys (setProp c k a)).Perm (k :: objectKeys c)) := by
  unfold setProp
  cases hp : hasProp c k
  · right
    exact ⟨rfl, by simpa using keys_insertProp k a c⟩
  · left
    exact ⟨rfl, by simpa using keys_replaceProp k a c⟩

theorem mem_keys_setProp (c : Collector) (k p : QId) (a : Answer) :
    p ∈ objectKeys (setProp c k a) ↔ p = k ∨ p ∈ objectKeys c := by
  rcases keys_setProp_perm c k a with ⟨hp, h⟩ | ⟨_, h⟩
  · rw [h]
    constructor
    · exact Or.inr
    · rintro (h2 | h2)
      · rw [h2]
        exact (hasProp_iff_mem_keys c k).mp hp
      · exact h2
  · rw [h.mem_iff]
    simp

theorem nodup_keys_setProp (c : Collector) (k : QId) (a : Answer)
    (hn : (objectKeys c).Nodup) : (objectKeys (setProp c k a)).Nodup := by
  rcases keys_setProp_perm c k a with ⟨_, h⟩ | ⟨hp, h⟩
  · rw [h]
    exact hn
  · rw [h.nodup_iff, List.nodup_cons]
    refine ⟨?_, hn⟩
    intro hk
    rw [← hasProp_iff_mem_keys, hp] at hk
    exact Bool.false_ne_true hk

theorem wellFormed_setAnswer (c : Collector) (q : QId) (t : JSText) (v : JSValue)
    (h : WellFormed c) : WellFormed (setAnswer c q t v) := by
  refine ⟨nodup_keys_setProp c q _ h.1, ?_⟩
  intro e he
  rcases mem_setProp c q _ e he with h2 | h2
  · rw [h2]
  · exact h.2 e h2

theorem wellFormed_foldl (writes : List (QId × JSText × JSValue)) (c : Collector)
    (h : WellFormed c) :
    WellFormed (writes.foldl (fun c w => setAnswer c w.1 w.2.1 w.2.2) c) := by
  induction writes generalizing c with
  | nil => exact h
  | cons w rest ih => exact ih _ (wellFormed_setAnswer c w.1 w.2.1 w.2.2 h)

theorem wellFormed_applyWrites (writes : List (QId × JSText × JSValue)) :
    WellFormed (applyWrites writes) :=
  wellFormed_foldl writes emptyCollector ⟨List.nodup_nil, by simp [emptyCollector]⟩

theorem mem_keys_foldl (writes : List (QId × JSText × JSValue)) (c : Collector) (p : QId) :
    p ∈ objectKeys (writes.foldl (fun c w => setAnswer c w.1 w.2.1 w.2.2) c) ↔
      p ∈ objectKeys c ∨ p ∈ writes.map (fun w => w.1) := by
  induction writes generalizing c with
  | nil => simp
  | cons w rest ih =>
    simp only [List.foldl_cons, List.map_cons, List.mem_cons]
    rw [ih, setAnswer, mem_keys_setProp]
    tauto

theorem values_question_ids (c : Collector) (h : WellFormed c) :
    (objectValues c).map (fun a => a.question_id) = objectKeys c := by
  unfold objectValues objectKeys
  rw [List.map_map]
  apply List.map_congr_left
  intro e he
  exact h.2 e he

theorem nodup_values (c : Collector) (h : WellFormed c) : (objectValues c).Nodup := by
  apply List.Nodup.of_map (fun a => a.question_id)
  rw [values_question_ids c h]
  exact h.1

theorem keepAnswer_of_specPresent (a : Answer) (h : specPresent a = true) :
    keepAnswer a = true := by
  obtain ⟨q, t, v⟩ := a
  cases t <;> cases v <;> simp_all [specPresent, keepAnswer, JSText.truthy, JSValue.isUndefined]

/-! ## The required-question check and the payload -/

/-- C1 (the code departs from the claim): for the form with the single required
text question 1 and the collector in which the text of question 1 was typed
and then deleted, the `missing` list of `handleSubmit` is empty although the
entry of the required question has empty text and value `null`, which is not
a present answer. -/
theorem missing_empty_for_cleared_required_text :
    missing requiredTextForm clearedTextCollector = [] ∧
    ∃ q ∈ requiredTextForm.questions, q.is_required = true ∧
      getProp clearedTextCollector q.id =
        some { question_id := .num 1, text := .str "", value := .null } ∧
      specPresent { question_id := .num 1, text := .str "", value := .null } = false := by
  decide

/-- C2 (the code departs from the claim): for the collector in which the
text of question 1 was typed and then deleted, the answers of the payload
built by `handleSubmit` contain an answer with empty text and value `null`. -/
theorem payload_contains_empty_answer :
    (submissionPayload clearedTextCollector false).answers =
      [{ question_id := .num 1, text := .str "", value := .null }] ∧
    ∃ a ∈ (submissionPayload clearedTextCollector false).answers,
      a.text = .str "" ∧ a.value = .null := by
  decide

/-- C3: the payload carries the anonymity flag; its answers are taken from
the collector values, in order and unchanged; every present answer occurs in
the payload as often as in the collector, which is exactly once in a
collector built by `setAnswer`. -/
theorem submissionPayload_keeps_present (c : Collector) (flag : Bool) :
    (submissionPayload c flag).is_anonymous = flag ∧
    (submissionPayload c flag).answers.Sublist (objectValues c) ∧
    (∀ a, specPresent a = true →
      (submissionPayload c flag).answers.count a = (objectValues c).count a) ∧
    (WellFormed c → ∀ k a, getProp c k = some a → specPresent a = true →
      (submissionPayload c flag).answers.count a = 1) := by
  refine ⟨rfl, List.filter_sublist _, ?_, ?_⟩
  · intro a ha
    exact List.count_filter (keepAnswer_of_specPresent a ha)
  · intro hwf k a hk ha
    have hc : (submissionPayload c flag).answers.count a = (objectValues c).count a :=
      List.count_filter (keepAnswer_of_specPresent a ha)
    rw [hc]
    exact List.count_eq_one_of_mem (nodup_values c hwf) (values_mem_of_getProp c k a hk)

theorem submissionPayload_keeps_present_witness :
    (submissionPayload sampleCollector true).is_anonymous = true ∧
    (submissionPayload sampleCollector true).answers.count
      { question_id := .num 1, text := .str "No", value := .num 0 } = 1 :=
  ⟨(submissionPayload_keeps_present sampleCollector true).1,
   (submissionPayload_keeps_present sampleCollector true).2.2.2 (by decide) (.num 1)
     { question_id := .num 1, text := .str "No", value := .num 0 } (by decide) (by decide)⟩

/-- C4: an answer whose value is the number 0 makes its question pass the
required-question check and is kept in the payload, whatever its text. -/
theorem zero_value_is_answered (f : Form) (c : Collector) (flag : Bool) (q : Question)
    (a : Answer) (hq : getProp c q.id = some a) (hv : a.value = .num 0) :
    isMissing c q = false ∧ q ∉ missing f c ∧ keepAnswer a = true ∧
    a ∈ (submissionPayload c flag).answers := by
  have h1 : isMissing c q = false := by
    simp [isMissing, valueAt, hq, hv, JSValue.isUndefined]
  have h2 : keepAnswer a = true := by
    simp [keepAnswer, hv, JSValue.isUndefined]
  refine ⟨h1, ?_, h2, ?_⟩
  · intro hm
    have h3 := (List.mem_filter.mp hm).2
    rw [h1] at h3
    exact Bool.false_ne_true h3
  · exact List.mem_filter.mpr ⟨values_mem_of_getProp c q.id a hq, h2⟩

theorem zero_value_is_answered_witness :
    isMissing sampleCollector
      { id := .num 1, question_text := "Useful?", question_type := "yes_no"
        is_required := true, options := .absent } = false ∧
    { question_id := .num 1, text := .str "No", value := .num 0 } ∈
      (submissionPayload sampleCollector false).answers :=
  have h := zero_value_is_answered requiredTextForm sampleCollector false
    { id := .num 1, question_text := "Useful?", question_type := "yes_no"
      is_required := true, options := .absent }
    { question_id := .num 1, text := .str "No", value := .num 0 } (by decide) rfl
  ⟨h.1, h.2.2.2⟩

/-- C5: after `setAnswer(q, t, v)` the entry of `q` is exactly
`{question_id: q, text: t, value: v}`, whatever the collector held before. -/
theorem setAnswer_overwrites (c : Collector) (q : QId) (t : JSText) (v : JSValue) :
    getProp (setAnswer c q t v) q = some { question_id := q, text := t, value := v } :=
  getProp_setProp_self c q _

/-- C6: after any sequence of `setAnswer` calls from the empty collector, the
number of stored answers is the number of distinct question ids written, no
key and no `question_id` occurs twice in the collector, and no `question_id`
occurs twice in the payload. -/
theorem one_answer_per_question (writes : List (QId × JSText × JSValue)) (flag : Bool) :
    (objectValues (applyWrites writes)).length = (writes.map (fun w => w.1)).toFinset.card ∧
    (objectKeys (applyWrites writes)).Nodup ∧
    ((objectValues (applyWrites writes)).map (fun a => a.question_id)).Nodup ∧
    ((submissionPayload (applyWrites writes) flag).answers.map
      (fun a => a.question_id)).Nodup := by
  have hwf := wellFormed_applyWrites writes
  have hids := values_question_ids (applyWrites writes) hwf
  refine ⟨?_, hwf.1, ?_, ?_⟩
  · have hlen : (objectValues (applyWrites writes)).length =
        (objectKeys (applyWrites writes)).length := by
      simp [objectValues, objectKeys]
    rw [hlen, ← List.toFinset_card_of_nodup hwf.1]
    congr 1
    ext p
    simp only [List.mem_toFinset]
    unfold applyWrites
    rw [mem_keys_foldl]
    simp [emptyCollector, objectKeys]
  · rw [hids]
    exact hwf.1
  · have hsub : ((submissionPayload (applyWrites writes) flag).answers.map
        (fun a => a.question_id)).Sublist
        ((objectValues (applyWrites writes)).map (fun a => a.question_id)) :=
      (List.filter_sublist _).map _
    rw [hids] at hsub
    exact hsub.nodup hwf.1

/-! ## The submit handler -/

/-- The handler itself does not read `submitting`: called on a state with a
submission in flight it decides on the POST as without one. -/
theorem handleSubmitStart_ignores_submitting (formId : String) (s : State) :
    (handleSubmitStart formId { s with submitting := true }).map (fun r => r.post) =
      (handleSubmitStart formId s).map (fun r => r.post) := by
  unfold handleSubmitStart
  cases hf : s.form with
  | none => simp [hf]
  | some f =>
    simp only [hf]
    split <;> rfl

/-- C7 as stated fails: `handleSubmit` called on a state with a submission in
flight (`submitting` is true) and a complete answer issues the POST again and
clears the error. -/
theorem handleSubmit_posts_while_in_flight :
    inFlightState.submitting = true ∧
    (handleSubmitStart "7" inFlightState).map (fun r => r.post) =
      some (some { path := "/forms/7/submit"
                   body := { is_anonymous := true
                             answers := [{ question_id := .num 1, text := .str "Great course"
                                           value := .null }] } }) := by
  decide

/-- C7 as amended: while a submission is in flight the submit button is
rendered disabled, and both continuations of the pending request clear the
flag and so enable the button again; `handleSubmit` itself has no guard: the
POST it issues with the flag set is the one it issues with the flag cleared,
which is the submission POST whenever the required-question check passes. -/
theorem handleSubmit_has_no_in_flight_guard (formId : String) (s : State)
    (h : s.submitting = true) :
    submitDisabled s = true ∧
    submitDisabled (handleSubmitResolve s) = false ∧
    (∀ message, submitDisabled (handleSubmitReject s message) = false) ∧
    (handleSubmitStart formId s).map (fun r => r.post) =
      (handleSubmitStart formId { s with submitting := false }).map (fun r => r.post) ∧
    (∀ f, s.form = some f → missing f s.answers = [] →
      (handleSubmitStart formId s).map (fun r => r.post) =
        some (some { path := "/forms/" ++ formId ++ "/submit"
                     body := submissionPayload s.answers s.isAnonymous })) := by
  refine ⟨h, rfl, fun _ => rfl, ?_, ?_⟩
  · have hs : { ({ s with submitting := false } : State) with submitting := true } = s := by
      cases s
      simp_all
    have h2 := handleSubmitStart_ignores_submitting formId { s with submitting := false }
    rw [hs] at h2
    exact h2
  · intro f hf hm
    simp [handleSubmitStart, hf, hm]

theorem handleSubmit_has_no_in_flight_guard_witness :
    submitDisabled inFlightState = true ∧
    (handleSubmitStart "7" inFlightState).map (fun r => r.post) =
      (handleSubmitStart "7" { inFlightState with submitting := false }).map
        (fun r => r.post) :=
  ⟨(handleSubmit_has_no_in_flight_guard "7" inFlightState rfl).1,
   (handleSubmit_has_no_in_flight_guard "7" inFlightState rfl).2.2.2.1⟩

/-- C8: when the required-question check finds a missing question,
`handleSubmit` issues no POST, sets the error to the required-questions
message and changes nothing else, however the transport would answer. -/
theorem handleSubmit_validation_failure (formId : String) (s : State) (f : Form)
    (outcome : Except String Unit) (hf : s.form = some f)
    (hm : missing f s.answers ≠ []) :
    ∃ step, handleSubmit formId s outcome = some step ∧
      handleSubmitStart formId s = some step ∧
      step.post = none ∧
      step.state.error = "Please answer all required questions" ∧
      step.state.answers = s.answers ∧
      step.state.isAnonymous = s.isAnonymous ∧
      step.state.submitting = s.submitting ∧
      step.state.submitted = s.submitted ∧
      step.state.form = s.form ∧
      step.state.loading = s.loading := by
  have hlen : (missing f s.answers).length > 0 := List.length_pos.mpr hm
  refine ⟨{ state := { s with error := requiredMessage }, post := none }, ?_, ?_,
    rfl, rfl, rfl, rfl, rfl, rfl, rfl, rfl⟩
  · simp [handleSubmit, handleSubmitStart, hf, hlen]
  · simp [handleSubmitStart, hf, hlen]

theorem handleSubmit_validation_failure_witness :
    ∃ step, handleSubmit "7" untouchedState (.ok ()) = some step ∧
      handleSubmitStart "7" untouchedState = some step ∧
      step.post = none ∧
      step.state.error = "Please answer all required questions" ∧
      step.state.answers = untouchedState.answers ∧
      step.state.isAnonymous = untouchedState.isAnonymous ∧
      step.state.submitting = untouchedState.submitting ∧
      step.state.submitted = untouchedState.submitted ∧
      step.state.form = untouchedState.form ∧
      step.state.loading = untouchedState.loading :=
  handleSubmit_validation_failure "7" untouchedState requiredTextForm (.ok ()) rfl
    (by decide)

/-- C9: when the check passes and the transport call fails with a message,
`handleSubmit` has issued the one POST and ends with the collector and the
anonymity flag as before, `submitting` false, `submitted` still false and the
error equal to the message; the rejection branch never touches the collector
or the flag, whatever was edited while the request was pending. -/
theorem handleSubmit_transport_failure (formId : String) (s : State) (f : Form)
    (message : String) (hf : s.form = some f) (hm : missing f s.answers = [])
    (hs : s.submitted = false) :
    (∃ step, handleSubmit formId s (.error message) = some step ∧
      step.post = some { path := "/forms/" ++ formId ++ "/submit"
                         body := submissionPayload s.answers s.isAnonymous } ∧
      step.state.answers = s.answers ∧
      step.state.isAnonymous = s.isAnonymous ∧
      step.state.submitting = false ∧
      step.state.submitted = false ∧
      step.state.error = message) ∧
    ∀ s2 : State, (handleSubmitReject s2 message).answers = s2.answers ∧
      (handleSubmitReject s2 message).isAnonymous = s2.isAnonymous := by
  refine ⟨⟨{ state := handleSubmitReject { s with submitting := true, error := "" } message
             post := some { path := "/forms/" ++ formId ++ "/submit"
                            body := submissionPayload s.answers s.isAnonymous } },
    ?_, rfl, rfl, rfl, rfl, hs, rfl⟩, fun _ => ⟨rfl, rfl⟩⟩
  simp [handleSubmit, handleSubmitStart, hf, hm]

theorem handleSubmit_transport_failure_witness :
    (∃ step, handleSubmit "7" readyState (.error "Already submitted") = some step ∧
      step.post = some { path := "/forms/" ++ "7" ++ "/submit"
                         body := submissionPayload readyState.answers readyState.isAnonymous } ∧
      step.state.answers = readyState.answers ∧
      step.state.isAnonymous = readyState.isAnonymous ∧
      step.state.submitting = false ∧
      step.state.submitted = false ∧
      step.state.error = "Already submitted") ∧
    ∀ s2 : State, (handleSubmitReject s2 "Already submitted").answers = s2.answers ∧
      (handleSubmitReject s2 "Already submitted").isAnonymous = s2.isAnonymous :=
  handleSubmit_transport_failure "7" readyState requiredTextForm "Already submitted" rfl
    (by decide) rfl

/-! ## The HTTP helper -/

theorem request_ok (res : Response) (h : res.ok = true) :
    request res = .ok { data := res.body.getD (Json.obj []), status := res.status } := by
  simp [request, h]

theorem request_fails_iff (res : Response) :
    (∃ e, request res = .error e) ↔ res.ok = false := by
  cases hok : res.ok
  · simp only [request, hok, Bool.not_false, if_true, iff_true]
    cases readError (res.body.getD (Json.obj [])) <;> simp
  · simp [request, hok]

theorem request_server_message (res : Response) (fields : List (String × Json))
    (m : String) (hok : res.ok = false) (hb : res.body = some (.obj fields))
    (he : lastField "error" fields = some (.str m)) (hm : m ≠ "") :
    request res = .error (.http m res.status) := by
  simp [request, hok, hb, readError, he, Json.truthy, hm, Json.toStr]

theorem request_generic_message (res : Response) (hok : res.ok = false)
    (hb : res.body = none ∨ ∃ fields, res.body = some (.obj fields) ∧
      (lastField "error" fields = none ∨ lastField "error" fields = some (.str ""))) :
    request res = .error (.http (genericMessage res.status) res.status) := by
  rcases hb with hb | ⟨fields, hb, he | he⟩
  · simp [request, hok, hb, readError, lastField]
  · simp [request, hok, hb, readError, he]
  · simp [request, hok, hb, readError, he, Json.truthy]

/-- C10 (the code departs from the claim): for a response that is not ok,
has status 500 and whose body parses to JSON `null`, `request` does not fail
with the generic message `HTTP 500`: reading `json.error` throws a
`TypeError`, and the promise rejects with that error instead. -/
theorem request_null_body_type_error :
    request { ok := false, status := 500, body := some .null } = .error .typeError ∧
    request { ok := false, status := 500, body := some .null } ≠
      .error (.http "HTTP 500" 500) ∧
    genericMessage 500 = "HTTP 500" := by
  refine ⟨rfl, ?_, by decide⟩
  intro h
  have h2 : (Except.error ApiError.typeError : Except ApiError ApiResult) =
      .error (.http "HTTP 500" 500) := h
  cases h2

/-! ## Lemmas on the chart primitives -/

theorem foldl_max_ge_init (l : List ℚ) (a : ℚ) : a ≤ l.foldl max a := by
  induction l generalizing a with
  | nil => exact le_refl a
  | cons x rest ih => exact le_trans (le_max_left a x) (ih (max a x))

theorem foldl_max_ge_mem (l : List ℚ) (a x : ℚ) (hx : x ∈ l) : x ≤ l.foldl max a := by
  induction l generalizing a with
  | nil => simp at hx
  | cons y rest ih =>
    rcases List.mem_cons.mp hx with h | h
    · rw [h]
      exact le_trans (le_max_right a y) (foldl_max_ge_init rest (max a y))
    · exact ih (max a y) h

theorem foldl_max_eq_largest (l : List ℚ) (a : ℚ) (hl : l ≠ []) :
    l.foldl max a = max (largestValue l) a := by
  induction l generalizing a with
  | nil => exact absurd rfl hl
  | cons x rest ih =>
    cases rest with
    | nil => simp [largestValue, max_comm]
    | cons y rest2 =>
      rw [List.foldl_cons, ih (max a x) (by simp)]
      simp only [largestValue]
      rw [max_comm a x, ← max_assoc, max_comm (largestValue (y :: rest2)) x]

theorem one_le_barMax (data : List BarDatum) : 1 ≤ barMax data :=
  foldl_max_ge_init _ 1

theorem barMax_pos (data : List BarDatum) : 0 < barMax data :=
  lt_of_lt_of_le one_pos (one_le_barMax data)

theorem le_barMax (data : List BarDatum) (d : BarDatum) (hd : d ∈ data) :
    d.value ≤ barMax data :=
  foldl_max_ge_mem _ 1 d.value (List.mem_map_of_mem (fun d => d.value) hd)

theorem barMax_eq_max_largest (data : List BarDatum) (hne : data ≠ []) :
    barMax data = max (largestValue (data.map (fun d => d.value))) 1 :=
  foldl_max_eq_largest _ 1 (by simpa using hne)

theorem barChart_of_ne_nil (data : List BarDatum) (hne : data ≠ []) :
    BarChart data = some (data.map (fun d =>
      { shown := d.value
        height := d.value / barMax data * 100
        minHeight := 4
        opacity := 7 / 10 + d.value / barMax data * (3 / 10)
        label := d.label })) := by
  have hlen : data.length ≠ 0 := fun h => hne (List.length_eq_zero.mp h)
  simp [BarChart, hlen]

theorem foldl_add_value (data : List DonutDatum) (x : ℚ) :
    data.foldl (fun a b => a + b.value) x = x + (data.map (fun d => d.value)).sum := by
  induction data generalizing x with
  | nil => simp
  | cons d rest ih =>
    rw [List.foldl_cons, ih]
    simp only [List.map_cons, List.sum_cons]
    ring

theorem donutSum_eq_sum (data : List DonutDatum) :
    donutSum data = (data.map (fun d => d.value)).sum := by
  unfold donutSum
  rw [foldl_add_value]
  ring

theorem donutTotal_ne_zero (data : List DonutDatum) : donutTotal data ≠ 0 := by
  unfold donutTotal
  split
  · assumption
  · exact one_ne_zero

theorem mapSegments_length (total circ angle : ℚ) (data : List DonutDatum) :
    (mapSegments total circ angle data).1.length = data.length := by
  induction data generalizing angle with
  | nil => rfl
  | cons d rest ih => simp [mapSegments, ih]

theorem mapSegments_items (total circ angle : ℚ) (data : List DonutDatum) :
    (mapSegments total circ angle data).1.map (fun s => (s.label, s.value, s.color)) =
      data.map (fun d => (d.label, d.value, d.color)) := by
  induction data generalizing angle with
  | nil => rfl
  | cons d rest ih => simp [mapSegments, ih]

theorem mapSegments_dashLen (total circ angle : ℚ) (data : List DonutDatum) :
    (mapSegments total circ angle data).1.map (fun s => s.dashLen) =
      data.map (fun d => d.value / total * circ) := by
  induction data generalizing angle with
  | nil => rfl
  | cons d rest ih => simp [mapSegments, ih]

theorem mapSegments_pct (total circ angle : ℚ) (data : List DonutDatum) :
    (mapSegments total circ angle data).1.map (fun s => s.pct) =
      data.map (fun d => d.value / total) := by
  induction data generalizing angle with
  | nil => rfl
  | cons d rest ih => simp [mapSegments, ih]

/-! ## The bar chart -/

/-- C11 as stated fails: for the series with the single value one half the
bar height of `BarChart` is 50 px, while the height computed with the
largest value of the series as the denominator is 100 px. -/
theorem barChart_height_differs_from_spec_max :
    (BarChart halfSeries).map (fun bars => bars.map (fun b => b.height)) = some [50] ∧
    halfSeries.map (fun d => d.value / specBarMax halfSeries * 100) = [100] ∧
    (BarChart halfSeries).map (fun bars => bars.map (fun b => b.height)) ≠
      some (halfSeries.map (fun d => d.value / specBarMax halfSeries * 100)) := by
  have h1 : (BarChart halfSeries).map (fun bars => bars.map (fun b => b.height)) =
      some [50] := by
    norm_num [BarChart, halfSeries, barMax]
  have h2 : halfSeries.map (fun d => d.value / specBarMax halfSeries * 100) = [100] := by
    norm_num [halfSeries, specBarMax, largestValue]
  refine ⟨h1, h2, ?_⟩
  rw [h1, h2]
  norm_num

/-- C11 as amended: for every non-empty series `BarChart` renders one bar per
item, and bar i has the height `(value_i / max) * 100` px, where `max` is
the larger of the largest value of the series and 1. -/
theorem barChart_height (data : List BarDatum) (hne : data ≠ []) :
    ∃ bars, BarChart data = some bars ∧
      bars.length = data.length ∧
      bars.map (fun b => b.height) = data.map (fun d => d.value / barMax data * 100) ∧
      barMax data = max (largestValue (data.map (fun d => d.value))) 1 ∧
      (∀ d ∈ data, d.value ≤ barMax data) := by
  refine ⟨_, barChart_of_ne_nil data hne, by simp, by simp, barMax_eq_max_largest data hne,
    le_barMax data⟩

theorem barChart_height_witness :
    ∃ bars, BarChart halfSeries = some bars ∧
      bars.length = halfSeries.length ∧
      bars.map (fun b => b.height) =
        halfSeries.map (fun d => d.value / barMax halfSeries * 100) ∧
      barMax halfSeries = max (largestValue (halfSeries.map (fun d => d.value))) 1 ∧
      (∀ d ∈ halfSeries, d.value ≤ barMax halfSeries) :=
  barChart_height halfSeries (by decide)

/-- C12: for every non-empty series bar i has the opacity
`0.7 + 0.3 * (value_i / max)`, with the denominator `max` used for the height;
for the series 3, 7, 1 the height fractions are 3/7, 1, 1/7 and the opacities
are `0.7 + 0.3 * 3/7`, 1 and `0.7 + 0.3 * 1/7`. -/
theorem barChart_opacity (data : List BarDatum) (hne : data ≠ []) :
    (∃ bars, BarChart data = some bars ∧
      bars.map (fun b => b.opacity) =
        data.map (fun d => 7 / 10 + 3 / 10 * (d.value / barMax data)) ∧
      bars.map (fun b => b.height) = data.map (fun d => d.value / barMax data * 100)) ∧
    (BarChart barSample).map (fun bars => bars.map (fun b => b.height / 100)) =
      some [3 / 7, 1, 1 / 7] ∧
    (BarChart barSample).map (fun bars => bars.map (fun b => b.opacity)) =
      some [7 / 10 + 3 / 10 * (3 / 7), 1, 7 / 10 + 3 / 10 * (1 / 7)] := by
  refine ⟨⟨_, barChart_of_ne_nil data hne, ?_, by simp⟩, ?_, ?_⟩
  · simp only [List.map_map]
    apply List.map_congr_left
    intro d _
    simp only [Function.comp]
    ring
  · norm_num [BarChart, barSample, barMax]
  · norm_num [BarChart, barSample, barMax]

theorem barChart_opacity_witness :
    ∃ bars, BarChart barSample = some bars ∧
      bars.map (fun b => b.opacity) =
        barSample.map (fun d => 7 / 10 + 3 / 10 * (d.value / barMax barSample)) ∧
      bars.map (fun b => b.height) =
        barSample.map (fun d => d.value / barMax barSample * 100) :=
  (barChart_opacity barSample (by decide)).1

/-! ## The donut chart -/

/-- C13: segment i of `DonutChart` has the dash length
`(value_i / total) * C`, where `C` is the circumference `2 * pi * 50` and
`total` is the sum of the values if that sum is not 0 and 1 otherwise; for
the series 5, 3, 2 the dash lengths are 1/2, 3/10 and 1/5 of `C`. -/
theorem donut_dashLen (pi : ℚ) (data : List DonutDatum) :
    (DonutChart pi data).segments.map (fun s => s.dashLen) =
      data.map (fun d => d.value /
        (if (data.map (fun e => e.value)).sum = 0 then 1
         else (data.map (fun e => e.value)).sum) * (2 * pi * 50)) ∧
    (DonutChart pi donutSample).segments.map (fun s => s.dashLen) =
      [1 / 2 * circumference pi, 3 / 10 * circumference pi, 1 / 5 * circumference pi] := by
  constructor
  · simp only [DonutChart, mapSegments_dashLen, donutTotal, donutSum_eq_sum, circumference]
    apply List.map_congr_left
    intro d _
    by_cases h : (data.map (fun e => e.value)).sum = 0 <;> simp [h]
  · simp only [DonutChart, mapSegments_dashLen]
    norm_num [donutTotal, donutSum, donutSample]

theorem donut_center_label_of_sum_ne_zero (pi : ℚ) (data : List DonutDatum)
    (hsum : donutSum data ≠ 0) : (DonutChart pi data).centerLabel = donutSum data := by
  simp [DonutChart, donutTotal, hsum]

/-- C16 (the code departs from the claim): for the empty series and for the
sentiment series of three zero counts the number `DonutChart` shows in the
center is the guard value 1, although the sum of the values is 0. -/
theorem donut_center_label_shows_guard :
    (DonutChart mathPI []).centerLabel = 1 ∧
    (DonutChart mathPI emptySentiment).centerLabel = 1 ∧
    donutSum emptySentiment = 0 ∧
    (DonutChart mathPI emptySentiment).legend.map (fun e => e.value) = [0, 0, 0] := by
  refine ⟨?_, ?_, ?_, ?_⟩
  · norm_num [DonutChart, donutTotal, donutSum]
  · norm_num [DonutChart, donutTotal, donutSum, emptySentiment]
  · norm_num [donutSum, emptySentiment]
  · norm_num [DonutChart, emptySentiment]

/-- C17: the denominators of both charts are never 0 (the one of `BarChart`
is at least 1, the one of `DonutChart` is positive for non-negative values);
for a series of zeros every bar height and every dash length is 0; for the
empty series `BarChart` renders nothing and `DonutChart` has no segments. -/
theorem chart_denominators_nonzero (pi : ℚ) (bars : List BarDatum)
    (data : List DonutDatum) :
    1 ≤ barMax bars ∧ barMax bars ≠ 0 ∧ donutTotal data ≠ 0 ∧
    ((∀ d ∈ data, 0 ≤ d.value) → 0 < donutTotal data) ∧
    ((∀ d ∈ bars, d.value = 0) →
      ∀ bs, BarChart bars = some bs → ∀ b ∈ bs, b.height = 0 ∧ b.height / 100 = 0) ∧
    ((∀ d ∈ data, d.value = 0) →
      ∀ s ∈ (DonutChart pi data).segments, s.dashLen = 0) ∧
    BarChart [] = none ∧
    (DonutChart pi []).segments = [] := by
  refine ⟨one_le_barMax bars, ne_of_gt (barMax_pos bars), donutTotal_ne_zero data,
    ?_, ?_, ?_, rfl, rfl⟩
  · intro hnn
    have hs : 0 ≤ (data.map (fun d => d.value)).sum := by
      apply List.sum_nonneg
      intro x hx
      obtain ⟨d, hd, rfl⟩ := List.mem_map.mp hx
      exact hnn d hd
    rw [← donutSum_eq_sum] at hs
    unfold donutTotal
    split
    · rename_i hne
      exact lt_of_le_of_ne hs (Ne.symm hne)
    · exact one_pos
  · intro hz bs hbs b hb
    by_cases hne : bars = []
    · subst hne
      simp [BarChart] at hbs
    · rw [barChart_of_ne_nil bars hne] at hbs
      cases hbs
      obtain ⟨d, hd, rfl⟩ := List.mem_map.mp hb
      simp [hz d hd]
  · intro hz s hs
    have hmem : s.dashLen ∈ (DonutChart pi data).segments.map (fun s => s.dashLen) :=
      List.mem_map_of_mem (fun s => s.dashLen) hs
    simp only [DonutChart, mapSegments_dashLen] at hmem
    obtain ⟨d, hd, hdl⟩ := List.mem_map.mp hmem
    rw [← hdl, hz d hd]
    simp

theorem chart_denominators_nonzero_witness :
    0 < donutTotal emptySentiment ∧
    (∀ bs, BarChart [{ label := "A", value := 0 }, { label := "B", value := 0 }] = some bs →
      ∀ b ∈ bs, b.height = 0 ∧ b.height / 100 = 0) ∧
    (∀ s ∈ (DonutChart mathPI emptySentiment).segments, s.dashLen = 0) :=
  have h := chart_denominators_nonzero mathPI
    [{ label := "A", value := 0 }, { label := "B", value := 0 }] emptySentiment
  ⟨h.2.2.2.1 (by simp [emptySentiment]),
   h.2.2.2.2.1 (by simp),
   h.2.2.2.2.2.1 (by simp [emptySentiment])⟩

/-- C18: `DonutChart` produces one segment and one legend entry per input
item, in input order, each with the label, value and color of its item. -/
theorem donut_segments_in_order (pi : ℚ) (data : List DonutDatum) :
    (DonutChart pi data).segments.length = data.length ∧
    (DonutChart pi data).legend.length = data.length ∧
    (DonutChart pi data).segments.map (fun s => (s.label, s.value, s.color)) =
      data.map (fun d => (d.label, d.value, d.color)) ∧
    (DonutChart pi data).legend.map (fun e => (e.label, e.value, e.color)) =
      data.map (fun d => (d.label, d.value, d.color)) := by
  refine ⟨mapSegments_length _ _ _ data, by simp [DonutChart],
    mapSegments_items _ _ _ data, by simp [DonutChart]⟩

/-! ## The scale and yes/no widgets -/

theorem mem_scaleRange (options : Options) (n : Int) :
    n ∈ scaleRange options ↔ scaleMin options ≤ n ∧ n ≤ scaleMax options := by
  unfold scaleRange
  simp only [List.mem_map, List.mem_range]
  constructor
  · rintro ⟨i, hi, rfl⟩
    have h := Int.lt_toNat.mp hi
    constructor <;> omega
  · rintro ⟨h1, h2⟩
    have h3 : ((n - scaleMin options).toNat : Int) = n - scaleMin options :=
      Int.toNat_of_nonneg (by omega)
    refine ⟨(n - scaleMin options).toNat, ?_, ?_⟩
    · apply Int.lt_toNat.mpr
      omega
    · omega

theorem scaleRange_of_nonzero (a b : Int) (labels : List String) (n : Int)
    (ha : a ≠ 0) (hb : b ≠ 0) :
    n ∈ scaleRange (.scale (some a) (some b) labels) ↔ a ≤ n ∧ n ≤ b := by
  rw [mem_scaleRange]
  simp [scaleMin, scaleMax, ha, hb]

theorem scaleWrites_spec (q : Question) (w : QId × JSText × JSValue)
    (hw : w ∈ scaleWrites q) :
    ∃ n : Int, scaleMin q.options ≤ n ∧ n ≤ scaleMax q.options ∧
      w = (q.id, .str (toString n), .num n) := by
  unfold scaleWrites ScaleInput at hw
  simp only [List.map_map, List.mem_map, Function.comp] at hw
  obtain ⟨n, hn, rfl⟩ := hw
  exact ⟨n, ((mem_scaleRange q.options n).mp hn).1, ((mem_scaleRange q.options n).mp hn).2, rfl⟩

/-- C19 (the code departs from the claim): for a scale question with the
options `{ min: 0, max: 5 }`, `ScaleInput` takes 1 for `min` and offers the
integers 1 to 5, so 0 is not offered and no write of the widget has value 0. -/
theorem scaleInput_skips_zero_min :
    scaleMin zeroBasedScale = 1 ∧
    (ScaleInput zeroBasedScale .undefined).buttons.map (fun b => b.n) = [1, 2, 3, 4, 5] ∧
    (0 : Int) ∉ scaleRange zeroBasedScale ∧
    (scaleWrites { id := .num 4, question_text := "Pace", question_type := "scale"
                   is_required := false, options := zeroBasedScale }).map (fun w => w.2.2) =
      [.num 1, .num 2, .num 3, .num 4, .num 5] := by
  decide

/-- C20: the yes/no widget of a question writes exactly two answers, `Yes`
with value 1 and `No` with value 0, both under the id of the question; so
the value is 1 exactly when the text is `Yes` and 0 exactly when it is `No`. -/
theorem yesNoWrites_spec (q : Question) (w : QId × JSText × JSValue)
    (hw : w ∈ yesNoWrites q) :
    yesNoWrites q = [(q.id, .str "Yes", .num 1), (q.id, .str "No", .num 0)] ∧
    w.1 = q.id ∧
    (w.2.1 = .str "Yes" ∨ w.2.1 = .str "No") ∧
    (w.2.2 = .num 1 ∨ w.2.2 = .num 0) ∧
    (w.2.2 = .num 1 ↔ w.2.1 = .str "Yes") ∧
    (w.2.2 = .num 0 ↔ w.2.1 = .str "No") ∧
    ∀ c, getProp (setAnswer c w.1 w.2.1 w.2.2) q.id =
      some { question_id := q.id, text := w.2.1, value := w.2.2 } := by
  have hlist : yesNoWrites q = [(q.id, .str "Yes", .num 1), (q.id, .str "No", .num 0)] := by
    simp [yesNoWrites]
  rw [hlist] at hw
  refine ⟨hlist, ?_⟩
  have hcases : w = (q.id, .str "Yes", .num 1) ∨ w = (q.id, .str "No", .num 0) := by
    simpa using hw
  rcases hcases with h | h
  · subst h
    refine ⟨rfl, Or.inl rfl, Or.inl rfl, by simp, by simp, fun c => ?_⟩
    exact getProp_setProp_self c q.id _
  · subst h
    refine ⟨rfl, Or.inr rfl, Or.inr rfl, by simp, by simp, fun c => ?_⟩
    exact getProp_setProp_self c q.id _

theorem yesNoWrites_spec_witness :
    yesNoWrites yesNoQuestion = [(.num 3, .str "Yes", .num 1), (.num 3, .str "No", .num 0)] ∧
    getProp (setAnswer emptyCollector (.num 3) (.str "No") (.num 0)) (.num 3) =
      some { question_id := .num 3, text := .str "No", value := .num 0 } :=
  have h := yesNoWrites_spec yesNoQuestion (.num 3, .str "No", .num 0) (by decide)
  ⟨h.1, h.2.2.2.2.2.2 emptyCollector⟩

/-! ## The star, choice and text widgets -/

theorem ratingWrites_eq (q : Question) :
    ratingWrites q =
      [(q.id, .str "1", .num 1), (q.id, .str "2", .num 2), (q.id, .str "3", .num 3),
       (q.id, .str "4", .num 4), (q.id, .str "5", .num 5)] := by
  simp only [ratingWrites, starNumbers, List.map_cons, List.map_nil]
  rfl

theorem isWidgetWrite_id (q : Question) (w : QId × JSText × JSValue)
    (h : isWidgetWrite q w = true) : w.1 = q.id := by
  unfold isWidgetWrite at h
  simp only [Bool.or_eq_true, Bool.and_eq_true, decide_eq_true_eq] at h
  rcases h with (((⟨_, h⟩ | ⟨_, h⟩) | ⟨_, h⟩) | ⟨_, h⟩) | ⟨_, h⟩
  · obtain ⟨k, t, v⟩ := w
    cases t <;> cases v <;> simp_all [isTextWrite]
  · rw [ratingWrites] at h
    obtain ⟨n, _, rfl⟩ := List.mem_map.mp h
    rfl
  · obtain ⟨n, _, _, rfl⟩ := scaleWrites_spec q w h
    rfl
  · rw [yesNoWrites] at h
    obtain ⟨n, _, rfl⟩ := List.mem_map.mp h
    rfl
  · rw [multipleChoiceWrites] at h
    obtain ⟨n, _, rfl⟩ := List.mem_map.mp h
    rfl

/-- C21: the star-rating widget writes exactly the answers with value 1 to 5
and the decimal string of the value as text; and for a current rating `v`
from 0 to 5 exactly `v` of the five stars are filled, namely the stars with
a number up to `v`. -/
theorem ratingWrites_spec (q : Question) :
    (∀ w ∈ ratingWrites q, ∃ n : Int, 1 ≤ n ∧ n ≤ 5 ∧
      w = (q.id, .str (toString n), .num n)) ∧
    ratingWrites q =
      [(q.id, .str "1", .num 1), (q.id, .str "2", .num 2), (q.id, .str "3", .num 3),
       (q.id, .str "4", .num 4), (q.id, .str "5", .num 5)] ∧
    (∀ v : Int, 0 ≤ v → v ≤ 5 →
      (StarRating v).stars.length = 5 ∧
      ((StarRating v).stars.filter (fun s => s.filled)).length = v.toNat ∧
      ∀ s ∈ (StarRating v).stars, (s.filled = true ↔ s.n ≤ v)) := by
  refine ⟨?_, ratingWrites_eq q, ?_⟩
  · intro w hw
    rw [ratingWrites] at hw
    obtain ⟨n, hn, rfl⟩ := List.mem_map.mp hw
    have h5 : n = 1 ∨ n = 2 ∨ n = 3 ∨ n = 4 ∨ n = 5 := by
      simpa [starNumbers] using hn
    exact ⟨n, by omega, by omega, rfl⟩
  · intro v h0 h5
    refine ⟨rfl, ?_, ?_⟩
    · interval_cases v <;> decide
    · intro s hs
      simp only [StarRating, List.mem_map] at hs
      obtain ⟨n, _, rfl⟩ := hs
      simp

theorem ratingWrites_spec_witness :
    (∃ n : Int, 1 ≤ n ∧ n ≤ 5 ∧
      ((.num 9, .str "4", .num 4) : QId × JSText × JSValue) =
        (.num 9, .str (toString n), .num n)) ∧
    ((StarRating 3).stars.filter (fun s => s.filled)).length = 3 :=
  have h := ratingWrites_spec
    { id := .num 9, question_text := "Overall rating", question_type := "rating"
      is_required := true, options := .absent }
  ⟨h.1 (.num 9, .str "4", .num 4) (by decide),
   ((h.2.2 3 (by decide) (by decide)).2.1)⟩

/-- C22: every write of the multiple-choice widget has value `null` and as
text one of the option strings of the question, and the write of the text
widget has value `null` and the typed string as text; both are stored
under the id of the question. -/
theorem choice_and_text_writes (q : Question) :
    (∀ w ∈ multipleChoiceWrites q, w.1 = q.id ∧ w.2.2 = .null ∧
      ∃ opt ∈ choiceOptions q.options, w.2.1 = .str opt) ∧
    (∀ opts, q.options = .choices opts →
      multipleChoiceWrites q = opts.map (fun opt => (q.id, .str opt, .null))) ∧
    (∀ typed, textWrite q typed = (q.id, .str typed, .null)) ∧
    (∀ typed c, getProp (setAnswer c (textWrite q typed).1 (textWrite q typed).2.1
        (textWrite q typed).2.2) q.id =
      some { question_id := q.id, text := .str typed, value := .null }) := by
  refine ⟨?_, ?_, fun _ => rfl, ?_⟩
  · intro w hw
    rw [multipleChoiceWrites] at hw
    obtain ⟨opt, hopt, rfl⟩ := List.mem_map.mp hw
    exact ⟨rfl, rfl, opt, hopt, rfl⟩
  · intro opts h
    simp [multipleChoiceWrites, choiceOptions, h]
  · intro typed c
    exact getProp_setProp_self c q.id _

theorem choice_and_text_writes_witness :
    (((.num 5, .str "Labs", .null) : QId × JSText × JSValue).1 = choiceQuestion.id ∧
      ((.num 5, .str "Labs", .null) : QId × JSText × JSValue).2.2 = .null ∧
      ∃ opt ∈ choiceOptions choiceQuestion.options,
        ((.num 5, .str "Labs", .null) : QId × JSText × JSValue).2.1 = .str opt) ∧
    multipleChoiceWrites choiceQuestion =
      ["Lectures", "Labs", "Project"].map (fun opt => (choiceQuestion.id, .str opt, .null)) :=
  have h := choice_and_text_writes choiceQuestion
  ⟨h.1 (.num 5, .str "Labs", .null) (by decide), h.2.1 _ rfl⟩

/-- C23: for a loaded form and every collector reached from the empty one by
`setAnswer` calls of the widgets of that form, every stored answer is stored
under the id of a question of the form and carries that id as `question_id`. -/
theorem reachable_answers_reference_form (form : Form)
    (writes : List (QId × JSText × JSValue))
    (hw : ∀ w ∈ writes, isFormWrite form w = true) (k : QId) (a : Answer)
    (ha : getProp (applyWrites writes) k = some a) :
    (∃ q ∈ form.questions, q.id = k) ∧ a.question_id = k := by
  have hmem := mem_of_getProp _ k a ha
  have hwf := wellFormed_applyWrites writes
  refine ⟨?_, hwf.2 (k, a) hmem⟩
  have hk : k ∈ objectKeys (applyWrites writes) := List.mem_map_of_mem Prod.fst hmem
  unfold applyWrites at hk
  rw [mem_keys_foldl] at hk
  rcases hk with hk | hk
  · simp [emptyCollector, objectKeys] at hk
  · obtain ⟨w, hwm, rfl⟩ := List.mem_map.mp hk
    have h := hw w hwm
    unfold isFormWrite at h
    obtain ⟨q, hq, hqw⟩ := List.any_eq_true.mp h
    exact ⟨q, hq, (isWidgetWrite_id q w hqw).symm⟩

theorem reachable_answers_reference_form_witness :
    (∃ q ∈ mixedForm.questions, q.id = .num 5) ∧
    ({ question_id := .num 5, text := .str "Labs", value := .null } : Answer).question_id =
      .num 5 :=
  reachable_answers_reference_form mixedForm
    [(.num 3, .str "Yes", .num 1), (.num 5, .str "Project", .null),
     (.num 5, .str "Labs", .null)]
    (by decide) (.num 5) { question_id := .num 5, text := .str "Labs", value := .null }
    (by decide)

/-! ## Purity and framing of the check and the payload -/

theorem handleSubmitStart_frame (formId : String) (s : State) (step : Step)
    (h : handleSubmitStart formId s = some step) :
    step.state.form = s.form ∧ step.state.answers = s.answers ∧
    step.state.isAnonymous = s.isAnonymous := by
  unfold handleSubmitStart at h
  cases hf : s.form with
  | none => simp [hf] at h
  | some f =>
    simp only [hf] at h
    split at h
    · cases h
      exact ⟨rfl, rfl, rfl⟩
    · cases h
      exact ⟨rfl, rfl, rfl⟩

/-- C24: the outcome of the check and the payload depend on the form, the
collector and the anonymity flag only; the synchronous part of
`handleSubmit` leaves these three unchanged, so the check and the payload
evaluate to the same results afterwards, and running it again on the
resulting state gives the identical result. -/
theorem check_and_payload_pure (formId : String) :
    (∀ s1 s2 : State, s1.form = s2.form → s1.answers = s2.answers →
      s1.isAnonymous = s2.isAnonymous →
      (handleSubmitStart formId s1).map (fun r => r.post) =
        (handleSubmitStart formId s2).map (fun r => r.post)) ∧
    (∀ (s : State) (step : Step), handleSubmitStart formId s = some step →
      step.state.form = s.form ∧ step.state.answers = s.answers ∧
      step.state.isAnonymous = s.isAnonymous ∧
      (∀ f, missing f step.state.answers = missing f s.answers) ∧
      submissionPayload step.state.answers step.state.isAnonymous =
        submissionPayload s.answers s.isAnonymous ∧
      handleSubmitStart formId step.state = some step) := by
  constructor
  · intro s1 s2 hf ha hi
    unfold handleSubmitStart
    rw [hf, ha, hi]
    cases s2.form with
    | none => rfl
    | some f =>
      simp only
      split <;> rfl
  · intro s step h
    obtain ⟨h1, h2, h3⟩ := handleSubmitStart_frame formId s step h
    refine ⟨h1, h2, h3, fun f => by rw [h2], by rw [h2, h3], ?_⟩
    unfold handleSubmitStart at h ⊢
    cases hf : s.form with
    | none => simp [hf] at h
    | some f =>
      simp only [hf] at h
      split at h
      · rename_i hlen
        cases h
        simp [hf, hlen]
      · rename_i hlen
        cases h
        simp [hf, hlen]

theorem check_and_payload_pure_witness :
    (handleSubmitStart "7" readyState).map (fun r => r.post) =
      (handleSubmitStart "7" { readyState with error := "Network error" }).map
        (fun r => r.post) :=
  (check_and_payload_pure "7").1 readyState { readyState with error := "Network error" }
    rfl rfl rfl

/-- C25: for two distinct question ids `q` and `p`, `setAnswer(q, t, v)`
leaves the entry stored for `p`, or its absence, unchanged. -/
theorem setAnswer_other_unchanged (c : Collector) (q p : QId) (t : JSText) (v : JSValue)
    (h : p ≠ q) : getProp (setAnswer c q t v) p = getProp c p :=
  getProp_setProp_other c q p _ h

theorem setAnswer_other_unchanged_witness :
    getProp (setAnswer sampleCollector (.num 2) (.str "Fine") .null) (.num 1) =
      getProp sampleCollector (.num 1) ∧
    getProp (setAnswer sampleCollector (.num 2) (.str "Fine") .null) (.num 8) =
      getProp sampleCollector (.num 8) :=
  ⟨setAnswer_other_unchanged sampleCollector (.num 2) (.num 1) (.str "Fine") .null
      (by decide),
   setAnswer_other_unchanged sampleCollector (.num 2) (.num 8) (.str "Fine") .null
      (by decide)⟩

/-- C26: the `missing` list is a sublist of `form.questions`, in form order;
every question in it is required and has neither a truthy text nor a defined
value, so no answer that is present; a question that is not required is
never in it, and a form without required questions always passes. -/
theorem missing_spec (form : Form) (c : Collector) :
    (missing form c).Sublist form.questions ∧
    (∀ q ∈ missing form c, q.is_required = true ∧
      (textAt c q.id).truthy = false ∧ valueAt c q.id = .undefined ∧
      ∀ a, getProp c q.id = some a → specPresent a = false) ∧
    (∀ q, q.is_required = false → q ∉ missing form c) ∧
    ((∀ q ∈ form.questions, q.is_required = false) → missing form c = []) := by
  have hq : ∀ q ∈ missing form c, q.is_required = true ∧
      (textAt c q.id).truthy = false ∧ valueAt c q.id = .undefined := by
    intro q hq
    have h := (List.mem_filter.mp hq).2
    simp only [isMissing, Bool.and_eq_true, Bool.not_eq_true'] at h
    refine ⟨h.1.1, h.1.2, ?_⟩
    cases hv : valueAt c q.id <;> simp_all [JSValue.isUndefined]
  refine ⟨List.filter_sublist _, ?_, ?_, ?_⟩
  · intro q hm
    obtain ⟨h1, h2, h3⟩ := hq q hm
    refine ⟨h1, h2, h3, ?_⟩
    intro a ha
    simp only [textAt, valueAt, ha] at h2 h3
    obtain ⟨k, t, v⟩ := a
    simp only at h2 h3
    subst h3
    cases t <;> simp_all [specPresent, JSText.truthy]
  · intro q hr hm
    rw [(hq q hm).1] at hr
    exact Bool.noConfusion hr
  · intro hall
    apply List.filter_eq_nil_iff.mpr
    intro q hqm
    simp [isMissing, hall q hqm]

theorem missing_spec_witness :
    (missing mixedForm emptyCollector = [yesNoQuestion]) ∧
    choiceQuestion ∉ missing mixedForm emptyCollector :=
  ⟨by decide, (missing_spec mixedForm emptyCollector).2.2.1 choiceQuestion rfl⟩

/-- C27: for a required question with a collector entry, the question is
reported missing exactly when the payload filter drops the entry; and when
the check passes, every required question of the form has an entry and that
entry is in the payload. -/
theorem missing_iff_dropped (form : Form) (c : Collector) (flag : Bool) :
    (∀ q a, q.is_required = true → getProp c q.id = some a →
      (isMissing c q = true ↔ keepAnswer a = false) ∧
      (isMissing c q = true ↔ a ∉ (submissionPayload c flag).answers)) ∧
    (missing form c = [] → ∀ q ∈ form.questions, q.is_required = true →
      ∃ a, getProp c q.id = some a ∧ a ∈ (submissionPayload c flag).answers) := by
  have hiff : ∀ q a, q.is_required = true → getProp c q.id = some a →
      (isMissing c q = true ↔ keepAnswer a = false) := by
    intro q a hr ha
    simp only [isMissing, keepAnswer, textAt, valueAt, ha, hr]
    cases a.text.truthy <;> cases a.value.isUndefined <;> simp
  have hmemp : ∀ k a, getProp c k = some a →
      (a ∈ (submissionPayload c flag).answers ↔ keepAnswer a = true) := by
    intro k a ha
    simp only [submissionPayload, List.mem_filter]
    exact ⟨fun h => h.2, fun h => ⟨values_mem_of_getProp c k a ha, h⟩⟩
  constructor
  · intro q a hr ha
    refine ⟨hiff q a hr ha, ?_⟩
    rw [hiff q a hr ha, hmemp q.id a ha]
    cases keepAnswer a <;> simp
  · intro hm q hq hr
    have hnm : isMissing c q = false := by
      have h := List.filter_eq_nil_iff.mp hm q hq
      simpa using h
    cases ha : getProp c q.id with
    | none =>
      simp [isMissing, textAt, valueAt, ha, hr, JSText.truthy, JSValue.isUndefined] at hnm
    | some a =>
      refine ⟨a, rfl, (hmemp q.id a ha).mpr ?_⟩
      have h := hiff q a hr ha
      cases hk : keepAnswer a
      · rw [hk] at h
        rw [h.mpr rfl] at hnm
        exact Bool.noConfusion hnm
      · rfl

theorem missing_iff_dropped_witness :
    ∃ a, getProp readyState.answers (.num 1) = some a ∧
      a ∈ (submissionPayload readyState.answers true).answers :=
  (missing_iff_dropped requiredTextForm readyState.answers true).2 (by decide)
    { id := .num 1, question_text := "Comments", question_type := "text"
      is_required := true, options := .absent } (by decide) rfl

/-! ## Bounds of the bar chart -/

theorem largestValue_mem (l : List ℚ) (hl : l ≠ []) : largestValue l ∈ l := by
  induction l with
  | nil => exact absurd rfl hl
  | cons x rest ih =>
    cases rest with
    | nil => simp [largestValue]
    | cons y rest2 =>
      simp only [largestValue]
      rcases max_choice x (largestValue (y :: rest2)) with h | h
      · rw [h]
        exact List.mem_cons_self _ _
      · rw [h]
        exact List.mem_cons_of_mem _ (ih (by simp))

theorem value_div_barMax_bounds (data : List BarDatum) (d : BarDatum) (hd : d ∈ data)
    (h0 : 0 ≤ d.value) : 0 ≤ d.value / barMax data ∧ d.value / barMax data ≤ 1 :=
  ⟨div_nonneg h0 (le_of_lt (barMax_pos data)),
   (div_le_one (barMax_pos data)).mpr (le_barMax data d hd)⟩

/-- C28: for every non-empty series of non-negative values every bar has a
height from 0 to 100 px and an opacity from 0.7 to 1, and for two items of
the series with `value_i <= value_j` the bars satisfy
`height_i <= height_j` and `opacity_i <= opacity_j`. -/
theorem barChart_bounds_monotone (data : List BarDatum) (hne : data ≠ [])
    (hnn : ∀ d ∈ data, 0 ≤ d.value) :
    ∃ bars, BarChart data = some bars ∧
      (∀ b ∈ bars, 0 ≤ b.height ∧ b.height ≤ 100 ∧ 7 / 10 ≤ b.opacity ∧ b.opacity ≤ 1) ∧
      (∀ (i j : Nat) (di dj : BarDatum), data[i]? = some di → data[j]? = some dj →
        di.value ≤ dj.value →
        ∃ bi bj : Bar, bars[i]? = some bi ∧ bars[j]? = some bj ∧
          bi.height ≤ bj.height ∧ bi.opacity ≤ bj.opacity) := by
  refine ⟨_, barChart_of_ne_nil data hne, ?_, ?_⟩
  · intro b hb
    obtain ⟨d, hd, rfl⟩ := List.mem_map.mp hb
    obtain ⟨h1, h2⟩ := value_div_barMax_bounds data d hd (hnn d hd)
    simp only
    refine ⟨?_, ?_, ?_, ?_⟩ <;> nlinarith
  · intro i j di dj hi hj hle
    have hdiv : di.value / barMax data ≤ dj.value / barMax data :=
      div_le_div_of_nonneg_right hle (le_of_lt (barMax_pos data))
    refine ⟨_, _, by rw [List.getElem?_map, hi]; rfl, by rw [List.getElem?_map, hj]; rfl,
      ?_, ?_⟩
    · simp only
      nlinarith
    · simp only
      nlinarith

theorem barChart_bounds_monotone_witness :
    ∃ bars, BarChart barSample = some bars ∧
      (∀ b ∈ bars, 0 ≤ b.height ∧ b.height ≤ 100 ∧ 7 / 10 ≤ b.opacity ∧ b.opacity ≤ 1) ∧
      (∀ (i j : Nat) (di dj : BarDatum), barSample[i]? = some di → barSample[j]? = some dj →
        di.value ≤ dj.value →
        ∃ bi bj : Bar, bars[i]? = some bi ∧ bars[j]? = some bj ∧
          bi.height ≤ bj.height ∧ bi.opacity ≤ bj.opacity) :=
  barChart_bounds_monotone barSample (by decide) (by
    intro d hd
    simp only [barSample, List.mem_cons, List.mem_singleton, List.not_mem_nil, or_false] at hd
    rcases hd with rfl | rfl | rfl <;> norm_num)

/-- C29: for every non-empty series of non-negative integer values the
denominator of `BarChart`, the maximum of the values and 1, equals the
largest value if that is not 0 and 1 otherwise; so a bar whose value is the
largest value and positive has height 100 px, height fraction 1. -/
theorem barMax_eq_spec_on_integers (data : List BarDatum) (hne : data ≠ [])
    (hint : ∀ d ∈ data, ∃ n : ℕ, d.value = n) :
    barMax data = specBarMax data ∧
    ∃ bars, BarChart data = some bars ∧
      ∀ (i : Nat) (d : BarDatum), data[i]? = some d →
        d.value = largestValue (data.map (fun e => e.value)) →
        0 < d.value → ∃ b : Bar, bars[i]? = some b ∧ b.height = 100 ∧ b.height / 100 = 1 := by
  have hmem := largestValue_mem (data.map (fun d => d.value)) (by simpa using hne)
  obtain ⟨d0, hd0, hL⟩ := List.mem_map.mp hmem
  obtain ⟨n, hn⟩ := hint d0 hd0
  have hLn : largestValue (data.map (fun d => d.value)) = n := by rw [← hL, hn]
  have hmax : barMax data = specBarMax data := by
    rw [barMax_eq_max_largest data hne, specBarMax, hLn]
    by_cases h0 : n = 0
    · subst h0
      simp
    · have h1 : (1 : ℚ) ≤ n := by exact_mod_cast Nat.one_le_iff_ne_zero.mpr h0
      have h2 : (n : ℚ) ≠ 0 := by exact_mod_cast h0
      simp [h2, max_eq_left h1]
  refine ⟨hmax, _, barChart_of_ne_nil data hne, ?_⟩
  intro i d hi hd hpos
  refine ⟨_, by rw [List.getElem?_map, hi]; rfl, ?_⟩
  have hb : barMax data = d.value := by
    rw [hmax, specBarMax, ← hd]
    simp [ne_of_gt hpos]
  have hne0 : d.value ≠ 0 := ne_of_gt hpos
  simp only
  rw [hb, div_self hne0]
  norm_num

theorem barMax_eq_spec_on_integers_witness :
    barMax barSample = specBarMax barSample :=
  (barMax_eq_spec_on_integers barSample (by decide) (by
    intro d hd
    simp only [barSample, List.mem_cons, List.mem_singleton, List.not_mem_nil, or_false] at hd
    rcases hd with rfl | rfl | rfl
    · exact ⟨3, by norm_num⟩
    · exact ⟨7, by norm_num⟩
    · exact ⟨1, by norm_num⟩)).1

/-! ## Redirects of the route table -/

theorem known_roles_reach_page :
    followRedirects { user := some { role := "admin" }, loading := false } 2 [] =
      some (.page "AdminDashboard") ∧
    followRedirects { user := some { role := "teacher" }, loading := false } 2 [] =
      some (.page "TeacherDashboard") ∧
    followRedirects { user := some { role := "student" }, loading := false } 2 [] =
      some (.page "StudentDashboard") := by
  decide

theorem unknown_role_redirect_loop (role : String) (h1 : role ≠ "admin")
    (h2 : role ≠ "teacher") (h3 : role ≠ "student") (fuel : Nat) :
    followRedirects { user := some { role := role }, loading := false } fuel [] = none ∧
    followRedirects { user := some { role := role }, loading := false } fuel ["student"] =
      none := by
  induction fuel with
  | zero => exact ⟨rfl, rfl⟩
  | succ n ih =>
    constructor
    · have hstep : App { user := some { role := role }, loading := false } [] =
          .navigate ["student"] := by
        simp [App, routeElement, RoleRedirect, h1, h2]
      simp only [followRedirects, hstep]
      exact ih.2
    · have hstep : App { user := some { role := role }, loading := false } ["student"] =
          .navigate [] := by
        have hl : (["student"] : List String).map lowerSegment = ["student"] := by decide
        simp [App, hl, routeElement, guarded, studentChild, ProtectedRoute, h3]
      simp only [followRedirects, hstep]
      exact ih.1

/-- C30 (the code departs from the claim): for a logged-in user with the role
`guest`, `RoleRedirect` sends the path `/` to `/student`, whose guard has the
roles list `['student']` and sends the user back to `/`; following the
redirects from `/` never reaches a rendered page, whatever the number of
steps. -/
theorem guest_redirect_loop :
    App guestAuth [] = .navigate ["student"] ∧
    App guestAuth ["student"] = .navigate [] ∧
    ∀ fuel, followRedirects guestAuth fuel [] = none := by
  refine ⟨by decide, by decide, fun fuel => ?_⟩
  exact (unknown_role_redirect_loop "guest" (by decide) (by decide) (by decide) fuel).1

/-! ## Lemmas on binary64 rounding -/

theorem roundHalfEven_abs_sub_le (y : ℚ) : |(roundHalfEven y : ℚ) - y| ≤ 1 / 2 := by
  have h1 : (⌊y⌋ : ℚ) ≤ y := Int.floor_le y
  have h2 : y < ⌊y⌋ + 1 := Int.lt_floor_add_one y
  unfold roundHalfEven
  split_ifs with ha hb hc
  · rw [abs_le]
    constructor <;> linarith
  · rw [abs_le]
    push_cast
    constructor <;> linarith
  · rw [abs_le]
    constructor <;> linarith
  · rw [abs_le]
    push_cast
    constructor <;> linarith

theorem roundHalfEven_eq_of_near (y : ℚ) (m : ℤ) (h1 : (m : ℚ) - 1 / 2 < y)
    (h2 : y < m + 1 / 2) : roundHalfEven y = m := by
  have hf1 : (⌊y⌋ : ℚ) ≤ y := Int.floor_le y
  have hf2 : y < ⌊y⌋ + 1 := Int.lt_floor_add_one y
  have hcases : ⌊y⌋ = m ∨ ⌊y⌋ = m - 1 := by
    have ha : (⌊y⌋ : ℚ) < m + 1 := by linarith
    have hb : (m : ℚ) - 2 < ⌊y⌋ := by linarith
    have ha2 : ⌊y⌋ < m + 1 := by exact_mod_cast ha
    have hb2 : m - 2 < ⌊y⌋ := by exact_mod_cast hb
    omega
  unfold roundHalfEven
  rcases hcases with h | h
  · have hlt : y - (⌊y⌋ : ℚ) < 1 / 2 := by
      rw [h]
      linarith
    rw [if_pos hlt, h]
  · have hfq : (⌊y⌋ : ℚ) = m - 1 := by
      rw [h]
      push_cast
      ring
    have hn : ¬ (y - (⌊y⌋ : ℚ) < 1 / 2) := by
      rw [hfq]
      intro hh
      linarith
    have hp : 1 / 2 < y - (⌊y⌋ : ℚ) := by
      rw [hfq]
      linarith
    rw [if_neg hn, if_pos hp, h]
    ring

theorem log_eq_of_bounds (r : ℚ) (z : ℤ) (h1 : (2 : ℚ) ^ z ≤ r)
    (h2 : r < (2 : ℚ) ^ (z + 1)) : Int.log 2 r = z := by
  have hr : 0 < r := lt_of_lt_of_le (by positivity) h1
  have ha : z ≤ Int.log 2 r :=
    (Int.zpow_le_iff_le_log (by norm_num) hr).mp (by exact_mod_cast h1)
  have hb : Int.log 2 r < z + 1 :=
    (Int.lt_zpow_iff_log_lt (by norm_num) hr).mp (by exact_mod_cast h2)
  omega

/-- Evaluation of `round64`: a number between the midpoints around
`m * 2^e`, with a magnitude from `2^(e+52)` to `2^(e+53)`, rounds to it. -/
theorem round64_eq_of_near (x : ℚ) (e m : ℤ) (hlo : (2 : ℚ) ^ (e + 52) ≤ |x|)
    (hhi : |x| < (2 : ℚ) ^ (e + 52 + 1)) (h1 : ((m : ℚ) - 1 / 2) * 2 ^ e < x)
    (h2 : x < ((m : ℚ) + 1 / 2) * 2 ^ e) : round64 x = m * 2 ^ e := by
  have hx : x ≠ 0 := by
    intro h
    rw [h, abs_zero] at hlo
    exact absurd hlo (not_le.mpr (by positivity))
  have hlog : Int.log 2 |x| - 52 = e := by
    rw [log_eq_of_bounds |x| (e + 52) hlo hhi]
    ring
  have hpos : (0 : ℚ) < 2 ^ e := by positivity
  unfold round64
  rw [if_neg hx, hlog, roundHalfEven_eq_of_near (x / 2 ^ e) m]
  · rw [lt_div_iff₀ hpos]
    exact h1
  · rw [div_lt_iff₀ hpos]
    exact h2

/-- The relative error of one rounding is at most the unit roundoff. -/
theorem round64_abs_sub_le (x : ℚ) : |round64 x - x| ≤ |x| * unitRoundoff := by
  unfold round64 unitRoundoff
  split_ifs with hx
  · simp [hx]
  · set e := Int.log 2 |x| - 52 with he
    have hpos : (0 : ℚ) < 2 ^ e := by positivity
    have habs : 0 < |x| := abs_pos.mpr hx
    have hlog : ((2 : ℕ) : ℚ) ^ Int.log 2 |x| ≤ |x| :=
      Int.zpow_log_le_self (by norm_num) habs
    have hround := roundHalfEven_abs_sub_le (x / 2 ^ e)
    have heq : (roundHalfEven (x / 2 ^ e) : ℚ) * 2 ^ e - x =
        ((roundHalfEven (x / 2 ^ e) : ℚ) - x / 2 ^ e) * 2 ^ e := by
      field_simp
    rw [heq, abs_mul, abs_of_pos hpos]
    have hpow : (2 : ℚ) ^ e = 2 ^ Int.log 2 |x| * (1 / 2 ^ 52) := by
      rw [he, zpow_sub₀ (by norm_num : (2 : ℚ) ≠ 0)]
      norm_num [div_eq_mul_inv]
    have hlog2 : (2 : ℚ) ^ Int.log 2 |x| ≤ |x| := by exact_mod_cast hlog
    calc |(roundHalfEven (x / 2 ^ e) : ℚ) - x / 2 ^ e| * 2 ^ e
        ≤ 1 / 2 * 2 ^ e := by gcongr
      _ = 2 ^ Int.log 2 |x| * (1 / 2 ^ 53) := by
        rw [hpow]
        norm_num
        ring
      _ ≤ |x| * (1 / 2 ^ 53) := by gcongr

theorem unitRoundoff_pos : 0 < unitRoundoff := by
  unfold unitRoundoff
  positivity

theorem unitRoundoff_lt_one : unitRoundoff < 1 := by
  unfold unitRoundoff
  norm_num

theorem round64_bounds (x : ℚ) (hx : 0 ≤ x) :
    (1 - unitRoundoff) * x ≤ round64 x ∧ round64 x ≤ (1 + unitRoundoff) * x := by
  have h := round64_abs_sub_le x
  rw [abs_of_nonneg hx, abs_le] at h
  constructor <;> linarith [h.1, h.2]

theorem round64_nonneg (x : ℚ) (hx : 0 ≤ x) : 0 ≤ round64 x := by
  have h := (round64_bounds x hx).1
  have hu : 0 ≤ 1 - unitRoundoff := by linarith [unitRoundoff_lt_one]
  exact le_trans (mul_nonneg hu hx) h

theorem round64_abs_le (x : ℚ) : |round64 x| ≤ (1 + unitRoundoff) * |x| := by
  have h := round64_abs_sub_le x
  have h2 : |round64 x| ≤ |round64 x - x| + |x| := by
    have := abs_add (round64 x - x) x
    simpa using this
  linarith

/-! ## Error bounds of the donut chart in binary64 -/

theorem foldl_add64_bounds (data : List DonutDatum) (a : ℚ) (ha : 0 ≤ a)
    (hnn : ∀ d ∈ data, 0 ≤ d.value) :
    (1 - unitRoundoff) ^ data.length * (a + (data.map (fun d => d.value)).sum) ≤
      data.foldl (fun a b => add64 a b.value) a ∧
    data.foldl (fun a b => add64 a b.value) a ≤
      (1 + unitRoundoff) ^ data.length * (a + (data.map (fun d => d.value)).sum) := by
  induction data generalizing a with
  | nil => simp
  | cons d rest ih =>
    have hv : 0 ≤ d.value := hnn d (List.mem_cons_self _ _)
    have hrest : ∀ e ∈ rest, 0 ≤ e.value := fun e he => hnn e (List.mem_cons_of_mem _ he)
    have hs : 0 ≤ (rest.map (fun d => d.value)).sum := by
      apply List.sum_nonneg
      intro x hx
      obtain ⟨e, he, rfl⟩ := List.mem_map.mp hx
      exact hrest e he
    have hav : 0 ≤ a + d.value := add_nonneg ha hv
    obtain ⟨hb1, hb2⟩ := round64_bounds (a + d.value) hav
    have ha2 : 0 ≤ add64 a d.value := round64_nonneg _ hav
    obtain ⟨ih1, ih2⟩ := ih (add64 a d.value) ha2 hrest
    have hu0 : 0 ≤ 1 - unitRoundoff := by linarith [unitRoundoff_lt_one]
    have hu1 : 0 ≤ 1 + unitRoundoff := by linarith [unitRoundoff_pos]
    have hp0 : 0 ≤ (1 - unitRoundoff) ^ rest.length := pow_nonneg hu0 _
    have hp1 : 0 ≤ (1 + unitRoundoff) ^ rest.length := pow_nonneg hu1 _
    simp only [List.foldl_cons, List.length_cons, List.map_cons, List.sum_cons, pow_succ]
    constructor
    · refine le_trans ?_ ih1
      rw [mul_assoc]
      apply mul_le_mul_of_nonneg_left _ hp0
      have : (1 - unitRoundoff) * (rest.map (fun d => d.value)).sum ≤
          (rest.map (fun d => d.value)).sum := by
        nlinarith [unitRoundoff_pos]
      unfold add64
      nlinarith
    · refine le_trans ih2 ?_
      rw [mul_assoc]
      apply mul_le_mul_of_nonneg_left _ hp1
      have : (rest.map (fun d => d.value)).sum ≤
          (1 + unitRoundoff) * (rest.map (fun d => d.value)).sum := by
        nlinarith [unitRoundoff_pos]
      unfold add64
      nlinarith

theorem donutSum64_bounds (data : List DonutDatum) (hnn : ∀ d ∈ data, 0 ≤ d.value) :
    (1 - unitRoundoff) ^ data.length * (data.map (fun d => d.value)).sum ≤ donutSum64 data ∧
    donutSum64 data ≤ (1 + unitRoundoff) ^ data.length * (data.map (fun d => d.value)).sum := by
  have h := foldl_add64_bounds data 0 (le_refl 0) hnn
  simpa [donutSum64] using h

theorem donutTotal64_of_pos (data : List DonutDatum) (hnn : ∀ d ∈ data, 0 ≤ d.value)
    (hpos : 0 < (data.map (fun d => d.value)).sum) :
    donutTotal64 data = donutSum64 data ∧ 0 < donutSum64 data := by
  have hu0 : 0 < 1 - unitRoundoff := by linarith [unitRoundoff_lt_one]
  have hlt : 0 < donutSum64 data :=
    lt_of_lt_of_le (mul_pos (pow_pos hu0 _) hpos) (donutSum64_bounds data hnn).1
  exact ⟨by simp [donutTotal64, ne_of_gt hlt], hlt⟩

theorem mul64_div64_bounds (v t c : ℚ) (hv : 0 ≤ v) (ht : 0 < t) (hc : 0 ≤ c) :
    (1 - unitRoundoff) ^ 2 * (v / t * c) ≤ mul64 (div64 v t) c ∧
    mul64 (div64 v t) c ≤ (1 + unitRoundoff) ^ 2 * (v / t * c) ∧
    0 ≤ mul64 (div64 v t) c := by
  have hq : 0 ≤ v / t := div_nonneg hv (le_of_lt ht)
  obtain ⟨hp1, hp2⟩ := round64_bounds (v / t) hq
  have hp0 : 0 ≤ div64 v t := round64_nonneg _ hq
  have hpc : 0 ≤ div64 v t * c := mul_nonneg hp0 hc
  obtain ⟨hm1, hm2⟩ := round64_bounds (div64 v t * c) hpc
  have hu0 : 0 ≤ 1 - unitRoundoff := by linarith [unitRoundoff_lt_one]
  have hu1 : 0 ≤ 1 + unitRoundoff := by linarith [unitRoundoff_pos]
  unfold div64 at hm1 hm2 hpc hp0 ⊢
  unfold mul64
  refine ⟨?_, ?_, round64_nonneg _ hpc⟩
  · have h1 : (1 - unitRoundoff) * ((1 - unitRoundoff) * (v / t)) * c ≤
        (1 - unitRoundoff) * (round64 (v / t) * c) := by
      rw [mul_assoc]
      exact mul_le_mul_of_nonneg_left (mul_le_mul_of_nonneg_right hp1 hc) hu0
    calc (1 - unitRoundoff) ^ 2 * (v / t * c)
        = (1 - unitRoundoff) * ((1 - unitRoundoff) * (v / t)) * c := by ring
      _ ≤ (1 - unitRoundoff) * (round64 (v / t) * c) := h1
      _ ≤ round64 (round64 (v / t) * c) := hm1
  · have h1 : (1 + unitRoundoff) * (round64 (v / t) * c) ≤
        (1 + unitRoundoff) * ((1 + unitRoundoff) * (v / t)) * c := by
      rw [mul_assoc]
      exact mul_le_mul_of_nonneg_left (mul_le_mul_of_nonneg_right hp2 hc) hu1
    calc round64 (round64 (v / t) * c)
        ≤ (1 + unitRoundoff) * (round64 (v / t) * c) := hm2
      _ ≤ (1 + unitRoundoff) * ((1 + unitRoundoff) * (v / t)) * c := h1
      _ = (1 + unitRoundoff) ^ 2 * (v / t * c) := by ring

theorem sum_mul64_div64_bounds (data : List DonutDatum) (t c : ℚ) (ht : 0 < t) (hc : 0 ≤ c)
    (hnn : ∀ d ∈ data, 0 ≤ d.value) :
    (1 - unitRoundoff) ^ 2 * ((data.map (fun d => d.value)).sum / t * c) ≤
      (data.map (fun d => mul64 (div64 d.value t) c)).sum ∧
    (data.map (fun d => mul64 (div64 d.value t) c)).sum ≤
      (1 + unitRoundoff) ^ 2 * ((data.map (fun d => d.value)).sum / t * c) := by
  induction data with
  | nil => simp
  | cons d rest ih =>
    obtain ⟨h1, h2, _⟩ := mul64_div64_bounds d.value t c (hnn d (List.mem_cons_self _ _)) ht hc
    obtain ⟨ih1, ih2⟩ := ih (fun e he => hnn e (List.mem_cons_of_mem _ he))
    simp only [List.map_cons, List.sum_cons]
    constructor
    · calc (1 - unitRoundoff) ^ 2 * ((d.value + (rest.map (fun d => d.value)).sum) / t * c)
          = (1 - unitRoundoff) ^ 2 * (d.value / t * c) +
            (1 - unitRoundoff) ^ 2 * ((rest.map (fun d => d.value)).sum / t * c) := by ring
        _ ≤ _ := add_le_add h1 ih1
    · calc mul64 (div64 d.value t) c + (rest.map (fun d => mul64 (div64 d.value t) c)).sum
          ≤ (1 + unitRoundoff) ^ 2 * (d.value / t * c) +
            (1 + unitRoundoff) ^ 2 * ((rest.map (fun d => d.value)).sum / t * c) :=
            add_le_add h2 ih2
        _ = _ := by ring

theorem sum_div64_bounds (data : List DonutDatum) (t : ℚ) (ht : 0 < t)
    (hnn : ∀ d ∈ data, 0 ≤ d.value) :
    (1 - unitRoundoff) * ((data.map (fun d => d.value)).sum / t) ≤
      (data.map (fun d => div64 d.value t)).sum ∧
    (data.map (fun d => div64 d.value t)).sum ≤
      (1 + unitRoundoff) * ((data.map (fun d => d.value)).sum / t) := by
  induction data with
  | nil => simp
  | cons d rest ih =>
    have hq : 0 ≤ d.value / t := div_nonneg (hnn d (List.mem_cons_self _ _)) (le_of_lt ht)
    obtain ⟨h1, h2⟩ := round64_bounds (d.value / t) hq
    obtain ⟨ih1, ih2⟩ := ih (fun e he => hnn e (List.mem_cons_of_mem _ he))
    simp only [List.map_cons, List.sum_cons, div64]
    simp only [div64] at ih1 ih2
    constructor
    · calc (1 - unitRoundoff) * ((d.value + (rest.map (fun d => d.value)).sum) / t)
          = (1 - unitRoundoff) * (d.value / t) +
            (1 - unitRoundoff) * ((rest.map (fun d => d.value)).sum / t) := by ring
        _ ≤ _ := add_le_add h1 ih1
    · calc round64 (d.value / t) + (rest.map (fun d => round64 (d.value / t))).sum
          ≤ (1 + unitRoundoff) * (d.value / t) +
            (1 + unitRoundoff) * ((rest.map (fun d => d.value)).sum / t) :=
            add_le_add h2 ih2
        _ = _ := by ring

/-- The quotient of the exact sum by the binary64 sum of a series. -/
theorem sum_div_donutSum64_bounds (data : List DonutDatum) (hnn : ∀ d ∈ data, 0 ≤ d.value)
    (hpos : 0 < (data.map (fun d => d.value)).sum) :
    1 / (1 + unitRoundoff) ^ data.length ≤
      (data.map (fun d => d.value)).sum / donutSum64 data ∧
    (data.map (fun d => d.value)).sum / donutSum64 data ≤
      1 / (1 - unitRoundoff) ^ data.length := by
  obtain ⟨h1, h2⟩ := donutSum64_bounds data hnn
  have hT := (donutTotal64_of_pos data hnn hpos).2
  have hu0 : 0 < 1 - unitRoundoff := by linarith [unitRoundoff_lt_one]
  have hu1 : 0 < 1 + unitRoundoff := by linarith [unitRoundoff_pos]
  constructor
  · rw [div_le_div_iff₀ (pow_pos hu1 _) hT]
    linarith
  · rw [div_le_div_iff₀ hT (pow_pos hu0 _)]
    linarith

theorem foldl_add64_abs_error (spans : List ℚ) (a : ℚ) (hnn : ∀ s ∈ spans, 0 ≤ s) :
    |spans.foldl add64 a - (a + spans.sum)| ≤
      ((1 + unitRoundoff) ^ spans.length - 1) * (|a| + spans.sum) := by
  induction spans generalizing a with
  | nil => simp
  | cons s rest ih =>
    have hs : 0 ≤ s := hnn s (List.mem_cons_self _ _)
    have hrest : ∀ x ∈ rest, 0 ≤ x := fun x hx => hnn x (List.mem_cons_of_mem _ hx)
    have hsum : 0 ≤ rest.sum := List.sum_nonneg hrest
    have herr := round64_abs_sub_le (a + s)
    have habs := round64_abs_le (a + s)
    have hk := ih (add64 a s) hrest
    have has : |a + s| ≤ |a| + s := by
      have := abs_add a s
      rwa [abs_of_nonneg hs] at this
    have hu := unitRoundoff_pos
    have hp : 1 ≤ (1 + unitRoundoff) ^ rest.length := one_le_pow₀ (by linarith)
    have hA : 0 ≤ |a| := abs_nonneg a
    simp only [List.foldl_cons, List.sum_cons, List.length_cons, pow_succ]
    unfold add64 at hk ⊢
    have htri : |rest.foldl (fun x y => round64 (x + y)) (round64 (a + s)) -
        (a + (s + rest.sum))| ≤
        |rest.foldl (fun x y => round64 (x + y)) (round64 (a + s)) -
          (round64 (a + s) + rest.sum)| + |round64 (a + s) - (a + s)| := by
      have := abs_add (rest.foldl (fun x y => round64 (x + y)) (round64 (a + s)) -
        (round64 (a + s) + rest.sum)) (round64 (a + s) - (a + s))
      have heq : rest.foldl (fun x y => round64 (x + y)) (round64 (a + s)) -
          (round64 (a + s) + rest.sum) + (round64 (a + s) - (a + s)) =
          rest.foldl (fun x y => round64 (x + y)) (round64 (a + s)) -
            (a + (s + rest.sum)) := by ring
      rwa [heq] at this
    have hk2 : |rest.foldl (fun x y => round64 (x + y)) (round64 (a + s)) -
        (round64 (a + s) + rest.sum)| ≤
        ((1 + unitRoundoff) ^ rest.length - 1) *
          ((1 + unitRoundoff) * (|a| + s) + rest.sum) := by
      refine le_trans hk ?_
      apply mul_le_mul_of_nonneg_left _ (by linarith)
      have : (1 + unitRoundoff) * |a + s| ≤ (1 + unitRoundoff) * (|a| + s) :=
        mul_le_mul_of_nonneg_left has (by linarith)
      linarith
    have herr2 : |round64 (a + s) - (a + s)| ≤ unitRoundoff * (|a| + s) := by
      refine le_trans herr ?_
      rw [mul_comm]
      exact mul_le_mul_of_nonneg_left has (le_of_lt hu)
    have hfinal : ((1 + unitRoundoff) ^ rest.length - 1) *
          ((1 + unitRoundoff) * (|a| + s) + rest.sum) + unitRoundoff * (|a| + s) ≤
        ((1 + unitRoundoff) ^ rest.length * (1 + unitRoundoff) - 1) *
          (|a| + (s + rest.sum)) := by
      have h1 : 0 ≤ ((1 + unitRoundoff) ^ rest.length - 1) * (unitRoundoff * rest.sum) :=
        mul_nonneg (by linarith) (mul_nonneg (le_of_lt hu) hsum)
      have h2 : 0 ≤ unitRoundoff * rest.sum := mul_nonneg (le_of_lt hu) hsum
      nlinarith
    linarith

theorem mapSegments64_angle (total circ angle : ℚ) (data : List DonutDatum) :
    (mapSegments64 total circ angle data).2 =
      (data.map (span64 total)).foldl add64 angle := by
  induction data generalizing angle with
  | nil => rfl
  | cons d rest ih => simp [mapSegments64, ih, span64]

theorem mapSegments64_dashLen (total circ angle : ℚ) (data : List DonutDatum) :
    (mapSegments64 total circ angle data).1.map (fun s => s.dashLen) =
      data.map (fun d => mul64 (div64 d.value total) circ) := by
  induction data generalizing angle with
  | nil => rfl
  | cons d rest ih => simp [mapSegments64, ih]

theorem mapSegments64_pct (total circ angle : ℚ) (data : List DonutDatum) :
    (mapSegments64 total circ angle data).1.map (fun s => s.pct) =
      data.map (fun d => div64 d.value total) := by
  induction data generalizing angle with
  | nil => rfl
  | cons d rest ih => simp [mapSegments64, ih]

theorem mapSegments64_offset (total circ angle : ℚ) (data : List DonutDatum) (i : Nat)
    (d : DonutDatum) (h : data[i]? = some d) :
    ((mapSegments64 total circ angle data).1[i]?).map (fun s => s.offset) =
      some (mul64 (-(div64 (mapSegments64 total circ angle (data.take i)).2 360)) circ) := by
  induction data generalizing angle i with
  | nil => simp at h
  | cons e rest ih =>
    cases i with
    | zero => simp [mapSegments64]
    | succ j =>
      have h2 : rest[j]? = some d := by simpa using h
      simpa [mapSegments64] using ih (add64 angle (mul64 (div64 e.value total) 360)) j h2

theorem circumference64_nonneg : 0 ≤ circumference64 := by
  unfold circumference64 mul64
  apply round64_nonneg
  apply mul_nonneg _ (by norm_num)
  apply round64_nonneg
  norm_num [mathPI64]

/-! ## Evaluation of binary64 operations -/

theorem round64_eval_pos (x y : ℚ) (e m : ℤ) (hy : y = m * 2 ^ e)
    (hlo : (2 : ℚ) ^ (e + 52) ≤ x) (hhi : x < (2 : ℚ) ^ (e + 52 + 1))
    (h1 : ((m : ℚ) - 1 / 2) * 2 ^ e < x) (h2 : x < ((m : ℚ) + 1 / 2) * 2 ^ e) :
    round64 x = y := by
  have hx : 0 < x := lt_of_lt_of_le (by positivity) hlo
  rw [hy]
  apply round64_eq_of_near
  · rwa [abs_of_pos hx]
  · rwa [abs_of_pos hx]
  · exact h1
  · exact h2

theorem round64_eval_neg (x y : ℚ) (e m : ℤ) (hy : y = m * 2 ^ e)
    (hlo : (2 : ℚ) ^ (e + 52) ≤ -x) (hhi : -x < (2 : ℚ) ^ (e + 52 + 1))
    (h1 : ((m : ℚ) - 1 / 2) * 2 ^ e < x) (h2 : x < ((m : ℚ) + 1 / 2) * 2 ^ e) :
    round64 x = y := by
  have hx : x < 0 := by
    have : (0 : ℚ) < -x := lt_of_lt_of_le (by positivity) hlo
    linarith
  rw [hy]
  apply round64_eq_of_near
  · rwa [abs_of_neg hx]
  · rwa [abs_of_neg hx]
  · exact h1
  · exact h2

theorem circumference64_eq : circumference64 = 5526748243772219 / 2 ^ 44 := by
  have h2pi : mul64 2 (884279719003555 / 2 ^ 48) = (884279719003555 / 2 ^ 47) := by
    unfold mul64
    exact round64_eval_pos _ _ (-50) (7074237752028440) (by norm_num) (by norm_num) (by norm_num)
      (by norm_num) (by norm_num)
  have hcirc : mul64 (884279719003555 / 2 ^ 47) 50 = (5526748243772219 / 2 ^ 44) := by
    unfold mul64
    exact round64_eval_pos _ _ (-44) (5526748243772219) (by norm_num) (by norm_num) (by norm_num)
      (by norm_num) (by norm_num)
  unfold circumference64 mathPI64
  rw [h2pi, hcirc]

theorem donutTotal64_thirds : donutTotal64 thirdsSeries = 3 := by
  have hs0 : add64 0 1 = 1 := by
    unfold add64
    exact round64_eval_pos _ _ (-52) (4503599627370496) (by norm_num) (by norm_num) (by norm_num)
      (by norm_num) (by norm_num)
  have hs1 : add64 1 1 = 2 := by
    unfold add64
    exact round64_eval_pos _ _ (-51) (4503599627370496) (by norm_num) (by norm_num) (by norm_num)
      (by norm_num) (by norm_num)
  have hs2 : add64 2 1 = 3 := by
    unfold add64
    exact round64_eval_pos _ _ (-51) (6755399441055744) (by norm_num) (by norm_num) (by norm_num)
      (by norm_num) (by norm_num)
  have hsum : donutSum64 thirdsSeries = 3 := by
    simp only [donutSum64, thirdsSeries, List.foldl]
    rw [hs0, hs1, hs2]
  rw [donutTotal64, hsum]
  norm_num

theorem donutTotal64_sevenths : donutTotal64 seventhsSeries = 7 := by
  have hs0 : add64 0 1 = 1 := by
    unfold add64
    exact round64_eval_pos _ _ (-52) (4503599627370496) (by norm_num) (by norm_num) (by norm_num)
      (by norm_num) (by norm_num)
  have hs1 : add64 1 2 = 3 := by
    unfold add64
    exact round64_eval_pos _ _ (-51) (6755399441055744) (by norm_num) (by norm_num) (by norm_num)
      (by norm_num) (by norm_num)
  have hs2 : add64 3 4 = 7 := by
    unfold add64
    exact round64_eval_pos _ _ (-50) (7881299347898368) (by norm_num) (by norm_num) (by norm_num)
      (by norm_num) (by norm_num)
  have hsum : donutSum64 seventhsSeries = 7 := by
    simp only [donutSum64, seventhsSeries, List.foldl]
    rw [hs0, hs1, hs2]
  rw [donutTotal64, hsum]
  norm_num

theorem donutTotal64_sample : donutTotal64 donutSample = 10 := by
  have hs0 : add64 0 5 = 5 := by
    unfold add64
    exact round64_eval_pos _ _ (-50) (5629499534213120) (by norm_num) (by norm_num) (by norm_num)
      (by norm_num) (by norm_num)
  have hs1 : add64 5 3 = 8 := by
    unfold add64
    exact round64_eval_pos _ _ (-49) (4503599627370496) (by norm_num) (by norm_num) (by norm_num)
      (by norm_num) (by norm_num)
  have hs2 : add64 8 2 = 10 := by
    unfold add64
    exact round64_eval_pos _ _ (-49) (5629499534213120) (by norm_num) (by norm_num) (by norm_num)
      (by norm_num) (by norm_num)
  have hsum : donutSum64 donutSample = 10 := by
    simp only [donutSum64, donutSample, List.foldl]
    rw [hs0, hs1, hs2]
  rw [donutTotal64, hsum]
  norm_num

theorem donut64_thirds_values :
    (DonutChart64 thirdsSeries).segments.map (fun s => s.pct) =
      [6004799503160661 / 2 ^ 54, 6004799503160661 / 2 ^ 54, 6004799503160661 / 2 ^ 54] ∧
    (DonutChart64 thirdsSeries).segments.map (fun s => s.dashLen) =
      [3684498829181479 / 2 ^ 45, 3684498829181479 / 2 ^ 45, 3684498829181479 / 2 ^ 45] := by
  have hp : div64 1 3 = (6004799503160661 / 2 ^ 54) := by
    unfold div64
    exact round64_eval_pos _ _ (-54) (6004799503160661) (by norm_num) (by norm_num) (by norm_num)
      (by norm_num) (by norm_num)
  have hd : mul64 (6004799503160661 / 2 ^ 54) (5526748243772219 / 2 ^ 44) = (3684498829181479 / 2 ^ 45) := by
    unfold mul64
    exact round64_eval_pos _ _ (-46) (7368997658362958) (by norm_num) (by norm_num) (by norm_num)
      (by norm_num) (by norm_num)
  simp only [DonutChart64, mapSegments64_pct, mapSegments64_dashLen, donutTotal64_thirds,
    circumference64_eq]
  simp only [thirdsSeries, List.map]
  rw [hp, hd]
  exact ⟨rfl, rfl⟩

theorem angleBefore64_sevenths :
    angleBefore64 seventhsSeries 1 = -5428445979419795 / 2 ^ 47 ∧
    add64 (-90) (div64 (mul64 360 1) (donutTotal64 seventhsSeries)) =
      -2714222989709897 / 2 ^ 46 := by
  have hp0 : div64 1 7 = (2573485501354569 / 2 ^ 54) := by
    unfold div64
    exact round64_eval_pos _ _ (-55) (5146971002709138) (by norm_num) (by norm_num) (by norm_num)
      (by norm_num) (by norm_num)
  have hsp0 : mul64 (2573485501354569 / 2 ^ 54) 360 = (7237927972559725 / 2 ^ 47) := by
    unfold mul64
    exact round64_eval_pos _ _ (-47) (7237927972559725) (by norm_num) (by norm_num) (by norm_num)
      (by norm_num) (by norm_num)
  have ha0 : add64 (-90) (7237927972559725 / 2 ^ 47) = (-5428445979419795 / 2 ^ 47) := by
    unfold add64
    exact round64_eval_neg _ _ (-47) (-5428445979419795) (by norm_num) (by norm_num) (by norm_num)
      (by norm_num) (by norm_num)
  have hc1 : mul64 360 1 = 360 := by
    unfold mul64
    exact round64_eval_pos _ _ (-44) (6333186975989760) (by norm_num) (by norm_num) (by norm_num)
      (by norm_num) (by norm_num)
  have hc2 : div64 360 7 = (3618963986279863 / 2 ^ 46) := by
    unfold div64
    exact round64_eval_pos _ _ (-47) (7237927972559726) (by norm_num) (by norm_num) (by norm_num)
      (by norm_num) (by norm_num)
  have hc3 : add64 (-90) (3618963986279863 / 2 ^ 46) = (-2714222989709897 / 2 ^ 46) := by
    unfold add64
    exact round64_eval_neg _ _ (-47) (-5428445979419794) (by norm_num) (by norm_num) (by norm_num)
      (by norm_num) (by norm_num)
  constructor
  · unfold angleBefore64
    rw [donutTotal64_sevenths, mapSegments64_angle]
    simp only [seventhsSeries, List.take_succ_cons, List.take_zero, List.map, List.foldl, span64]
    rw [hp0, hsp0, ha0]
  · rw [donutTotal64_sevenths, hc1, hc2, hc3]

theorem angleBefore64_sample :
    angleBefore64 donutSample 0 = -90 ∧ angleBefore64 donutSample 1 = 90 ∧
    angleBefore64 donutSample 2 = 198 := by
  have hp0 : div64 5 10 = (1 / 2 ^ 1) := by
    unfold div64
    exact round64_eval_pos _ _ (-53) (4503599627370496) (by norm_num) (by norm_num) (by norm_num)
      (by norm_num) (by norm_num)
  have hp1 : div64 3 10 = (5404319552844595 / 2 ^ 54) := by
    unfold div64
    exact round64_eval_pos _ _ (-54) (5404319552844595) (by norm_num) (by norm_num) (by norm_num)
      (by norm_num) (by norm_num)
  have hsp0 : mul64 (1 / 2 ^ 1) 360 = 180 := by
    unfold mul64
    exact round64_eval_pos _ _ (-45) (6333186975989760) (by norm_num) (by norm_num) (by norm_num)
      (by norm_num) (by norm_num)
  have hsp1 : mul64 (5404319552844595 / 2 ^ 54) 360 = 108 := by
    unfold mul64
    exact round64_eval_pos _ _ (-46) (7599824371187712) (by norm_num) (by norm_num) (by norm_num)
      (by norm_num) (by norm_num)
  have ha0 : add64 (-90) 180 = 90 := by
    unfold add64
    exact round64_eval_pos _ _ (-46) (6333186975989760) (by norm_num) (by norm_num) (by norm_num)
      (by norm_num) (by norm_num)
  have ha1 : add64 90 108 = 198 := by
    unfold add64
    exact round64_eval_pos _ _ (-45) (6966505673588736) (by norm_num) (by norm_num) (by norm_num)
      (by norm_num) (by norm_num)
  refine ⟨?_, ?_, ?_⟩
  · simp [angleBefore64, mapSegments64]
  · unfold angleBefore64
    rw [donutTotal64_sample, mapSegments64_angle]
    simp only [donutSample, List.take_succ_cons, List.take_zero, List.map, List.foldl, span64]
    rw [hp0, hsp0, ha0]
  · unfold angleBefore64
    rw [donutTotal64_sample, mapSegments64_angle]
    simp only [donutSample, List.take_succ_cons, List.take_zero, List.map, List.foldl, span64]
    rw [hp0, hsp0, ha0, hp1, hsp1, ha1]

/-- Size of the tolerance: for up to `2^20` items both factors are within
`(n + 2) * 2^-52` of 1. -/
theorem tolerance_small (n : Nat) (hn : n ≤ 1048576) :
    1 - (n + 2) * (2 * unitRoundoff) ≤ toleranceLow n ∧
    toleranceHigh n ≤ 1 + (n + 2) * (2 * unitRoundoff) := by
  have hu := unitRoundoff_pos
  have hu1 := unitRoundoff_lt_one
  have hnq : (n : ℚ) ≤ 1048576 := by exact_mod_cast hn
  have hn0 : (0 : ℚ) ≤ n := Nat.cast_nonneg n
  have hval : unitRoundoff = 1 / 2 ^ 53 := rfl
  have hnu : (n : ℚ) * unitRoundoff ≤ 1 / 2 ^ 33 := by
    rw [hval]
    have : (n : ℚ) * (1 / 2 ^ 53) ≤ 1048576 * (1 / 2 ^ 53) :=
      mul_le_mul_of_nonneg_right hnq (by positivity)
    refine le_trans this ?_
    norm_num
  have hbern : 1 - (n : ℚ) * unitRoundoff ≤ (1 - unitRoundoff) ^ n := by
    have h := one_add_mul_le_pow (show (-2 : ℚ) ≤ -unitRoundoff by linarith) n
    have e1 : 1 + (n : ℚ) * -unitRoundoff = 1 - n * unitRoundoff := by ring
    have e2 : (1 + -unitRoundoff) = 1 - unitRoundoff := by ring
    rwa [e1, e2] at h
  have hpos : 0 < 1 - (n : ℚ) * unitRoundoff := by
    have : (1 : ℚ) / 2 ^ 33 < 1 := by norm_num
    linarith
  have hp1 : 0 < (1 - unitRoundoff) ^ n := lt_of_lt_of_le hpos hbern
  have hp2 : 0 < (1 + unitRoundoff) ^ n := pow_pos (by linarith) n
  have hprod : (1 + unitRoundoff) ^ n * (1 - unitRoundoff) ^ n ≤ 1 := by
    rw [← mul_pow]
    apply pow_le_one₀
    · nlinarith
    · nlinarith
  have hu2 : unitRoundoff ^ 2 ≤ unitRoundoff := by nlinarith
  constructor
  · unfold toleranceLow
    rw [le_div_iff₀ hp2]
    -- (1 - (n+2) 2u) (1+u)^n ≤ (1-u)^2
    have hinv : (1 + unitRoundoff) ^ n * (1 - (n : ℚ) * unitRoundoff) ≤ 1 :=
      le_trans (mul_le_mul_of_nonneg_left hbern (le_of_lt hp2)) hprod
    by_cases hneg : 1 - ((n : ℚ) + 2) * (2 * unitRoundoff) ≤ 0
    · exact le_trans (mul_nonpos_of_nonpos_of_nonneg hneg (le_of_lt hp2)) (sq_nonneg _)
    · push_neg at hneg
      have hkey : 1 - ((n : ℚ) + 2) * (2 * unitRoundoff) ≤
          (1 - unitRoundoff) ^ 2 * (1 - n * unitRoundoff) := by
        nlinarith [mul_nonneg hn0 (le_of_lt hu), mul_nonneg (mul_nonneg hn0 (le_of_lt hu))
          (le_of_lt hu), sq_nonneg unitRoundoff]
      calc (1 - ((n : ℚ) + 2) * (2 * unitRoundoff)) * (1 + unitRoundoff) ^ n
          ≤ (1 - unitRoundoff) ^ 2 * (1 - n * unitRoundoff) * (1 + unitRoundoff) ^ n :=
            mul_le_mul_of_nonneg_right hkey (le_of_lt hp2)
        _ = (1 - unitRoundoff) ^ 2 * ((1 + unitRoundoff) ^ n * (1 - n * unitRoundoff)) := by
            ring
        _ ≤ (1 - unitRoundoff) ^ 2 * 1 :=
            mul_le_mul_of_nonneg_left hinv (sq_nonneg _)
        _ = (1 - unitRoundoff) ^ 2 := by ring
  · unfold toleranceHigh
    rw [div_le_iff₀ hp1]
    have hkey : (1 + unitRoundoff) ^ 2 ≤
        (1 + ((n : ℚ) + 2) * (2 * unitRoundoff)) * (1 - n * unitRoundoff) := by
      have h33 : (n : ℚ) * unitRoundoff * (2 * (n + 2)) ≤ 1 := by
        have h1 : (n : ℚ) * unitRoundoff * (2 * (n + 2)) ≤ 1 / 2 ^ 33 * (2 * (1048576 + 2)) :=
          mul_le_mul hnu (by linarith) (by linarith) (by positivity)
        refine le_trans h1 ?_
        norm_num
      nlinarith [mul_nonneg hn0 (le_of_lt hu)]
    calc (1 + unitRoundoff) ^ 2
        ≤ (1 + ((n : ℚ) + 2) * (2 * unitRoundoff)) * (1 - n * unitRoundoff) := hkey
      _ ≤ (1 + ((n : ℚ) + 2) * (2 * unitRoundoff)) * (1 - unitRoundoff) ^ n :=
          mul_le_mul_of_nonneg_left hbern (by positivity)

theorem donutTotal64_pos (data : List DonutDatum) (hnn : ∀ d ∈ data, 0 ≤ d.value) :
    0 < donutTotal64 data := by
  have h0 : 0 ≤ donutSum64 data := by
    have hu0 : 0 ≤ 1 - unitRoundoff := by linarith [unitRoundoff_lt_one]
    have hs : 0 ≤ (data.map (fun d => d.value)).sum := by
      apply List.sum_nonneg
      intro x hx
      obtain ⟨e, he, rfl⟩ := List.mem_map.mp hx
      exact hnn e he
    exact le_trans (mul_nonneg (pow_nonneg hu0 _) hs) (donutSum64_bounds data hnn).1
  unfold donutTotal64
  split
  · rename_i hne
    exact lt_of_le_of_ne h0 (Ne.symm hne)
  · exact one_pos

theorem span64_nonneg (data : List DonutDatum) (hnn : ∀ d ∈ data, 0 ≤ d.value)
    (l : List DonutDatum) (hl : ∀ d ∈ l, 0 ≤ d.value) :
    ∀ s ∈ l.map (span64 (donutTotal64 data)), 0 ≤ s := by
  intro s hs
  obtain ⟨d, hd, rfl⟩ := List.mem_map.mp hs
  exact (mul64_div64_bounds d.value _ 360 (hl d hd) (donutTotal64_pos data hnn)
    (by norm_num)).2.2

theorem tolerance_order (n : Nat) :
    0 < toleranceLow n ∧ toleranceLow n ≤ 1 ∧ 1 ≤ toleranceHigh n := by
  have hu := unitRoundoff_pos
  have hu1 := unitRoundoff_lt_one
  have h1 : 0 < 1 - unitRoundoff := by linarith
  have h2 : 0 < 1 + unitRoundoff := by linarith
  have hp1 : (1 - unitRoundoff) ^ n ≤ 1 := pow_le_one₀ (le_of_lt h1) (by linarith)
  have hp2 : 1 ≤ (1 + unitRoundoff) ^ n := one_le_pow₀ (by linarith)
  have hq1 : (1 - unitRoundoff) ^ 2 ≤ 1 := pow_le_one₀ (le_of_lt h1) (by linarith)
  have hq2 : 1 ≤ (1 + unitRoundoff) ^ 2 := one_le_pow₀ (by linarith)
  unfold toleranceLow toleranceHigh
  refine ⟨div_pos (pow_pos h1 _) (pow_pos h2 _), ?_, ?_⟩
  · rw [div_le_one (pow_pos h2 _)]
    linarith
  · rw [one_le_div (pow_pos h1 _)]
    linarith

theorem sum_scaled_bounds (data : List DonutDatum) (c : ℚ) (hc : 0 ≤ c)
    (hnn : ∀ d ∈ data, 0 ≤ d.value) (hpos : 0 < (data.map (fun d => d.value)).sum) :
    toleranceLow data.length * c ≤
      (data.map (fun d => mul64 (div64 d.value (donutTotal64 data)) c)).sum ∧
    (data.map (fun d => mul64 (div64 d.value (donutTotal64 data)) c)).sum ≤
      toleranceHigh data.length * c := by
  obtain ⟨hT, hTpos⟩ := donutTotal64_of_pos data hnn hpos
  obtain ⟨h1, h2⟩ := sum_mul64_div64_bounds data (donutTotal64 data) c (hT ▸ hTpos) hc hnn
  obtain ⟨hq1, hq2⟩ := sum_div_donutSum64_bounds data hnn hpos
  rw [hT] at h1 h2 ⊢
  have hu0 : 0 ≤ (1 - unitRoundoff) ^ 2 := sq_nonneg _
  have hu1 : 0 ≤ (1 + unitRoundoff) ^ 2 := sq_nonneg _
  unfold toleranceLow toleranceHigh
  constructor
  · calc (1 - unitRoundoff) ^ 2 / (1 + unitRoundoff) ^ data.length * c
        = (1 - unitRoundoff) ^ 2 * (1 / (1 + unitRoundoff) ^ data.length * c) := by ring
      _ ≤ (1 - unitRoundoff) ^ 2 *
          ((data.map (fun d => d.value)).sum / donutSum64 data * c) :=
          mul_le_mul_of_nonneg_left (mul_le_mul_of_nonneg_right hq1 hc) hu0
      _ ≤ _ := h1
  · calc (data.map (fun d => mul64 (div64 d.value (donutSum64 data)) c)).sum
        ≤ (1 + unitRoundoff) ^ 2 *
          ((data.map (fun d => d.value)).sum / donutSum64 data * c) := h2
      _ ≤ (1 + unitRoundoff) ^ 2 * (1 / (1 - unitRoundoff) ^ data.length * c) :=
          mul_le_mul_of_nonneg_left (mul_le_mul_of_nonneg_right hq2 hc) hu1
      _ = (1 + unitRoundoff) ^ 2 / (1 - unitRoundoff) ^ data.length * c := by ring

/-! ## The donut chart in binary64 -/

/-- C14 as stated fails in binary64: for the series 1, 2, 4 the variable
`angle` before segment 1 is -38.57142857142858, while the closed form
`-90 + 360 * 1 / 7` gives -38.57142857142857 when evaluated in binary64 and
the rational -270/7 when evaluated exactly. -/
theorem donut64_angle_differs_from_closed_form :
    angleBefore64 seventhsSeries 1 = -5428445979419795 / 2 ^ 47 ∧
    add64 (-90) (div64 (mul64 360 1) (donutTotal64 seventhsSeries)) =
      -2714222989709897 / 2 ^ 46 ∧
    angleBefore64 seventhsSeries 1 ≠
      add64 (-90) (div64 (mul64 360 1) (donutTotal64 seventhsSeries)) ∧
    angleBefore64 seventhsSeries 1 ≠ -90 + 360 * 1 / 7 := by
  obtain ⟨h1, h2⟩ := angleBefore64_sevenths
  refine ⟨h1, h2, ?_, ?_⟩
  · rw [h1, h2]
    norm_num
  · rw [h1]
    norm_num

/-- C14 as amended, in binary64: `angle` is -90 before the first segment;
before segment i+1 it is the rounded sum of its value before segment i and
the rounded `pct_i * 360`, so each segment starts at the angle where the
previous one ended; the offset of segment i is `-(angle_i / 360) * C` with
each operation rounded; for non-negative values `angle_i` differs from
-90 plus the exact sum of the earlier spans by at most
`((1 + u)^i - 1) * (90 + that sum)`, with `u = 2^-53`; for the series
5, 3, 2 the angles are -90, 90, 198 and the fractions 0, 1/2, 4/5. -/
theorem donut64_angles (data : List DonutDatum) :
    angleBefore64 data 0 = -90 ∧
    (∀ (i : Nat) (d : DonutDatum), data[i]? = some d →
      angleBefore64 data (i + 1) =
        add64 (angleBefore64 data i) (mul64 (div64 d.value (donutTotal64 data)) 360)) ∧
    (∀ (i : Nat) (d : DonutDatum), data[i]? = some d →
      ((DonutChart64 data).segments[i]?).map (fun s => s.offset) =
        some (mul64 (-(div64 (angleBefore64 data i) 360)) circumference64)) ∧
    ((∀ d ∈ data, 0 ≤ d.value) → ∀ i : Nat,
      |angleBefore64 data i -
          (-90 + ((data.take i).map (span64 (donutTotal64 data))).sum)| ≤
        ((1 + unitRoundoff) ^ i - 1) *
          (90 + ((data.take i).map (span64 (donutTotal64 data))).sum)) ∧
    (List.range 3).map (angleBefore64 donutSample) = [-90, 90, 198] ∧
    (List.range 3).map (fun i => (angleBefore64 donutSample i + 90) / 360) =
      [0, 1 / 2, 4 / 5] := by
  refine ⟨by simp [angleBefore64, mapSegments64], ?_, ?_, ?_, ?_, ?_⟩
  · intro i d hd
    unfold angleBefore64
    rw [mapSegments64_angle, mapSegments64_angle, List.take_succ, hd]
    simp [List.foldl_append, span64]
  · intro i d hd
    exact mapSegments64_offset _ _ _ data i d hd
  · intro hnn i
    have hl : ∀ d ∈ data.take i, 0 ≤ d.value := fun d hd => hnn d (List.mem_of_mem_take hd)
    have hsp := span64_nonneg data hnn (data.take i) hl
    have hsum : 0 ≤ ((data.take i).map (span64 (donutTotal64 data))).sum :=
      List.sum_nonneg hsp
    have h := foldl_add64_abs_error ((data.take i).map (span64 (donutTotal64 data))) (-90) hsp
    unfold angleBefore64
    rw [mapSegments64_angle]
    refine le_trans h ?_
    have habs : |(-90 : ℚ)| = 90 := by norm_num
    rw [habs]
    apply mul_le_mul_of_nonneg_right _ (by linarith)
    have hlen : ((data.take i).map (span64 (donutTotal64 data))).length ≤ i := by
      simp
    have hmono : (1 + unitRoundoff) ^ ((data.take i).map (span64 (donutTotal64 data))).length ≤
        (1 + unitRoundoff) ^ i :=
      pow_le_pow_right₀ (by linarith [unitRoundoff_pos]) hlen
    linarith
  · obtain ⟨h0, h1, h2⟩ := angleBefore64_sample
    simp [List.range, List.range.loop, h0, h1, h2]
  · obtain ⟨h0, h1, h2⟩ := angleBefore64_sample
    simp only [List.range, List.range.loop, List.map, h0, h1, h2]
    norm_num

theorem donut64_angles_witness :
    angleBefore64 donutSample 2 =
      add64 (angleBefore64 donutSample 1) (mul64 (div64 3 (donutTotal64 donutSample)) 360) ∧
    ((DonutChart64 donutSample).segments[1]?).map (fun s => s.offset) =
      some (mul64 (-(div64 (angleBefore64 donutSample 1) 360)) circumference64) :=
  ⟨(donut64_angles donutSample).2.1 1
      { label := "Y", value := 3, color := "green" } (by decide),
   (donut64_angles donutSample).2.2.1 1
      { label := "Y", value := 3, color := "green" } (by decide)⟩

/-- C15 as stated fails in binary64: for the series 1, 1, 1 the three dash
lengths add up to less than the circumference and the three fractions to less
than 1. -/
theorem donut64_thirds_not_exact :
    ((DonutChart64 thirdsSeries).segments.map (fun s => s.dashLen)).sum =
      11053496487544437 / 2 ^ 45 ∧
    circumference64 = 5526748243772219 / 2 ^ 44 ∧
    ((DonutChart64 thirdsSeries).segments.map (fun s => s.dashLen)).sum ≠ circumference64 ∧
    ((DonutChart64 thirdsSeries).segments.map (fun s => s.pct)).sum =
      18014398509481983 / 2 ^ 54 ∧
    ((DonutChart64 thirdsSeries).segments.map (fun s => s.pct)).sum ≠ 1 := by
  obtain ⟨hp, hd⟩ := donut64_thirds_values
  rw [hp, hd, circumference64_eq]
  norm_num

/-- C15 as amended, in binary64: for non-negative values with a positive sum
the fractions add up to 1, the dash lengths to the circumference and the
final `angle` to 270 within the rounding tolerance: with `u = 2^-53`,
`lo = (1-u)^2 / (1+u)^n` and `hi = (1+u)^2 / (1-u)^n` for `n` items, the sum
of the fractions lies between `lo` and `hi`, the sum of the dash lengths
between `lo * C` and `hi * C`, and the final angle is within
`((1+u)^n - 1) * (90 + 360 * hi) + 360 * (hi - lo)` of 270; for up to `2^20`
items `lo` and `hi` are within `(n + 2) * 2^-52` of 1. -/
theorem donut64_full_circle_within_tolerance (data : List DonutDatum)
    (hnn : ∀ d ∈ data, 0 ≤ d.value) (hpos : 0 < (data.map (fun d => d.value)).sum) :
    toleranceLow data.length ≤
      ((DonutChart64 data).segments.map (fun s => s.pct)).sum ∧
    ((DonutChart64 data).segments.map (fun s => s.pct)).sum ≤ toleranceHigh data.length ∧
    toleranceLow data.length * circumference64 ≤
      ((DonutChart64 data).segments.map (fun s => s.dashLen)).sum ∧
    ((DonutChart64 data).segments.map (fun s => s.dashLen)).sum ≤
      toleranceHigh data.length * circumference64 ∧
    |finalAngle64 data - 270| ≤
      ((1 + unitRoundoff) ^ data.length - 1) * (90 + 360 * toleranceHigh data.length) +
        360 * (toleranceHigh data.length - toleranceLow data.length) ∧
    (data.length ≤ 1048576 →
      1 - (data.length + 2) * (2 * unitRoundoff) ≤ toleranceLow data.length ∧
      toleranceHigh data.length ≤ 1 + (data.length + 2) * (2 * unitRoundoff)) := by
  obtain ⟨hT, hTpos⟩ := donutTotal64_of_pos data hnn hpos
  obtain ⟨hlo0, hlo1, hhi1⟩ := tolerance_order data.length
  have hu := unitRoundoff_pos
  have hu1 := unitRoundoff_lt_one
  refine ⟨?_, ?_, ?_, ?_, ?_, fun hn => tolerance_small data.length hn⟩
  · -- fractions, lower bound
    simp only [DonutChart64, mapSegments64_pct]
    obtain ⟨h1, _⟩ := sum_div64_bounds data (donutTotal64 data) (hT ▸ hTpos) hnn
    obtain ⟨hq1, _⟩ := sum_div_donutSum64_bounds data hnn hpos
    rw [hT] at h1 ⊢
    refine le_trans ?_ h1
    have hone : toleranceLow data.length ≤
        (1 - unitRoundoff) * (1 / (1 + unitRoundoff) ^ data.length) := by
      unfold toleranceLow
      rw [mul_one_div]
      apply div_le_div_of_nonneg_right _ (pow_nonneg (by linarith) _)
      nlinarith
    exact le_trans hone (mul_le_mul_of_nonneg_left hq1 (by linarith))
  · simp only [DonutChart64, mapSegments64_pct]
    obtain ⟨_, h2⟩ := sum_div64_bounds data (donutTotal64 data) (hT ▸ hTpos) hnn
    obtain ⟨_, hq2⟩ := sum_div_donutSum64_bounds data hnn hpos
    rw [hT] at h2 ⊢
    refine le_trans h2 ?_
    have hone : (1 + unitRoundoff) * (1 / (1 - unitRoundoff) ^ data.length) ≤
        toleranceHigh data.length := by
      unfold toleranceHigh
      rw [mul_one_div]
      apply div_le_div_of_nonneg_right _ (pow_nonneg (by linarith) _)
      nlinarith
    exact le_trans (mul_le_mul_of_nonneg_left hq2 (by linarith)) hone
  · simp only [DonutChart64, mapSegments64_dashLen]
    exact (sum_scaled_bounds data circumference64 circumference64_nonneg hnn hpos).1
  · simp only [DonutChart64, mapSegments64_dashLen]
    exact (sum_scaled_bounds data circumference64 circumference64_nonneg hnn hpos).2
  · obtain ⟨hs1, hs2⟩ := sum_scaled_bounds data 360 (by norm_num) hnn hpos
    have hsp := span64_nonneg data hnn data hnn
    have herr := foldl_add64_abs_error (data.map (span64 (donutTotal64 data))) (-90) hsp
    have hfa : finalAngle64 data =
        (data.map (span64 (donutTotal64 data))).foldl add64 (-90) := by
      unfold finalAngle64
      rw [mapSegments64_angle]
    have hspan : (data.map (span64 (donutTotal64 data))).sum =
        (data.map (fun d => mul64 (div64 d.value (donutTotal64 data)) 360)).sum := rfl
    rw [List.length_map, hspan] at herr
    have habs : |(-90 : ℚ)| = 90 := by norm_num
    rw [habs, ← hfa] at herr
    set S := (data.map (fun d => mul64 (div64 d.value (donutTotal64 data)) 360)).sum with hS
    have hpw : 0 ≤ (1 + unitRoundoff) ^ data.length - 1 := by
      have : 1 ≤ (1 + unitRoundoff) ^ data.length := one_le_pow₀ (by linarith)
      linarith
    have herr2 : |finalAngle64 data - (-90 + S)| ≤
        ((1 + unitRoundoff) ^ data.length - 1) * (90 + 360 * toleranceHigh data.length) := by
      refine le_trans herr ?_
      apply mul_le_mul_of_nonneg_left _ hpw
      linarith
    have hS360 : |S - 360| ≤ 360 * (toleranceHigh data.length - toleranceLow data.length) := by
      rw [abs_le]
      constructor <;> nlinarith
    have htri : |finalAngle64 data - 270| ≤ |finalAngle64 data - (-90 + S)| + |S - 360| := by
      have := abs_add (finalAngle64 data - (-90 + S)) (S - 360)
      have heq : finalAngle64 data - (-90 + S) + (S - 360) = finalAngle64 data - 270 := by ring
      rwa [heq] at this
    linarith

theorem donut64_full_circle_within_tolerance_witness :
    toleranceLow 3 * circumference64 ≤
      ((DonutChart64 thirdsSeries).segments.map (fun s => s.dashLen)).sum ∧
    ((DonutChart64 thirdsSeries).segments.map (fun s => s.dashLen)).sum ≤
      toleranceHigh 3 * circumference64 :=
  have h := donut64_full_circle_within_tolerance thirdsSeries
    (by
      intro d hd
      simp only [thirdsSeries, List.mem_cons, List.mem_singleton, List.not_mem_nil,
        or_false] at hd
      rcases hd with rfl | rfl | rfl <;> norm_num)
    (by norm_num [thirdsSeries])
  ⟨h.2.2.1, h.2.2.2.1⟩

end FeedbackSystem
